import Mathlib

/-!
Verification of the settings-validation and profile-resolution engine of
KimKiHyuk/terminal (src/cascadia/TerminalApp/CascadiaSettings.cpp).

The embedding is shallow: each method of CascadiaSettings.cpp is translated
to a Lean function over an explicit state record.  C++ exceptions are
modelled with the Except monad: the two SettingsException throws carry
their SettingsLoadErrors code, an out-of-bounds element access and a
Value() call on a null IReference get their own error markers.  Types that
the excerpt only uses (Profile, GlobalAppSettings, the GUID utilities, the
json blobs) are modelled from the spec; such definitions say so in their
doc comment.
-/

namespace Terminal

/-- Modelled from the spec: profile identifiers (winrt::guid / GUID values,
not defined in the excerpt) are represented by their canonical
brace-delimited lower-case string form. -/
abbrev Guid := String

/-- Modelled from the spec: the all-zero GUID value, the result of the
default constructor winrt::guid\x7b\x7d used as the "unset" marker. -/
def nullGuid : Guid := "{00000000-0000-0000-0000-000000000000}"

/-- Modelled from the spec: hexadecimal-digit test used by the external
identifier parser. -/
def isHexDigitChar (c : Char) : Bool :=
  c.isDigit || ('a' ≤ c && c ≤ 'f') || ('A' ≤ c && c ≤ 'F')

/-- Modelled from the spec: the external GUID parser (Utils::GuidFromString is
not part of the excerpt).  It accepts exactly the canonical brace-delimited
8-4-4-4-12 hexadecimal shape and yields the canonical lower-case form;
any other string is rejected. -/
def guidParse (s : String) : Option Guid :=
  let cs := s.data
  if cs.length = 38 ∧
      cs[0]? = some '{' ∧ cs[37]? = some '}' ∧
      cs[9]? = some '-' ∧ cs[14]? = some '-' ∧ cs[19]? = some '-' ∧
      cs[24]? = some '-' ∧
      ((List.range 38).all fun i =>
        decide (i ∈ ([0, 9, 14, 19, 24, 37] : List Nat)) ||
        (cs[i]?.map isHexDigitChar).getD false) then
    some (String.mk (cs.map Char.toLower))
  else
    none

/-- The fatal error codes this file throws as TerminalApp::SettingsException
(CascadiaSettings.cpp lines 207 and 388). -/
inductive SettingsLoadErrors
  | NoProfiles
  | AllProfilesHidden
deriving DecidableEq, Repr

/-- The warning codes this file appends to the warnings list, together with
the two codes that keybinding parsing (outside the excerpt) can deposit in
GlobalAppSettings. -/
inductive SettingsLoadWarnings
  | MissingDefaultProfile
  | DuplicateProfile
  | UnknownColorScheme
  | InvalidBackgroundImage
  | InvalidIcon
  | AtLeastOneKeybindingWarning
  | LegacyGlobalsProperty
  | TooManyKeysForChord
  | MissingRequiredParameter
deriving DecidableEq, Repr

/-- Abnormal outcomes of the embedded code: a fatal SettingsException, an
out-of-bounds element access, a Value() call on a null IReference, and the
E_INVALIDARG error BuildSettings throws for an unknown profile GUID. -/
inductive ModelError
  | fatal (e : SettingsLoadErrors)
  | oob
  | nullRef
  | invalidArg
deriving DecidableEq, Repr

/-- Modelled from the spec: a named color scheme, a name plus a fixed set of
color attributes (the ColorScheme class is not part of the excerpt). -/
structure ColorScheme where
  name : String
  foreground : Nat
  background : Nat
deriving DecidableEq, Repr

/-- Modelled from the spec: a profile record (implementation::Profile is not
part of the excerpt): identifier (absent until assigned), display name,
hidden flag, color-scheme-name, icon path, background-image path, command
line, starting directory, starting title. -/
structure Profile where
  guid : Option Guid
  name : String
  hidden : Bool
  colorSchemeName : String
  iconPath : String
  backgroundImagePath : String
  commandline : String
  startingDirectory : String
  startingTitle : String
deriving DecidableEq, Repr

/-- Modelled from the spec: GlobalAppSettings (not part of the excerpt):
the unparsed default-profile token, the resolved default-profile
identifier, the named color-scheme table, the warnings deposited while
parsing keybindings, and cross-cutting session fields. -/
structure GlobalAppSettings where
  unparsedDefaultProfile : Option String
  defaultProfile : Guid
  colorSchemes : List ColorScheme
  keybindingsWarnings : List SettingsLoadWarnings
  initialRows : Nat
  initialCols : Nat
deriving DecidableEq, Repr

/-- The NewTerminalArgs payload the resolver consumes: an optional profile
index, a profile token, and the three session override fields. -/
structure NewTerminalArgs where
  profileIndex : Option Int
  profile : String
  commandline : String
  startingDirectory : String
  tabTitle : String
deriving DecidableEq, Repr

/-- Modelled from the spec: the effective terminal-session settings object
(TerminalSettings is not part of the excerpt): the three overridable
fields plus representative profile-derived and global-derived fields. -/
structure TerminalSettings where
  commandline : String
  startingDirectory : String
  startingTitle : String
  defaultForeground : Nat
  defaultBackground : Nat
  initialRows : Nat
  initialCols : Nat
deriving DecidableEq, Repr

/-- The CascadiaSettings state the excerpt manipulates: the profile store,
the global settings, the warning list, and the two raw json blobs
(modelled by the guid of each profile json entry, in order, as
Profile::GetGuidOrGenerateForJson resolves it, plus the presence bit of
the legacy "globals" key). -/
structure CascadiaSettings where
  profiles : List Profile
  globals : GlobalAppSettings
  warnings : List SettingsLoadWarnings
  userProfileGuids : List Guid
  defaultProfileGuids : List Guid
  userHasGlobalsKey : Bool
deriving DecidableEq, Repr

/-- Modelled from the spec: the deterministic external services the pipeline
calls — GUID derivation for a profile lacking one (a stable hash of its
definition), environment-variable expansion, and URI validity checking
(the Windows.Foundation.Uri constructor). -/
structure Env where
  gen : Profile → Guid
  expandEnvVars : String → String
  uriOk : String → Bool

/-- Element access `l.at(i)` / `l[i]`: out of bounds is an error. -/
def listGetE {α : Type} (l : List α) (i : Nat) : Except ModelError α :=
  match l[i]? with
  | some a => .ok a
  | none => .error .oob

/-- IReference access `.Value()`: null is an error. -/
def guidValue : Option Guid → Except ModelError Guid
  | some g => .ok g
  | none => .error .nullRef

/-- CascadiaSettings::FindProfile (lines 73-88): the first profile whose
non-null guid equals the argument; no match gives nullptr. -/
def FindProfile (s : CascadiaSettings) (profileGuid : Guid) : Option Profile :=
  s.profiles.find? fun p => p.guid == some profileGuid

/-- CascadiaSettings::_ValidateProfilesExist (lines 196-209): throws
NoProfiles when the store is empty. -/
def ValidateProfilesExist (s : CascadiaSettings) : Except ModelError Unit :=
  if s.profiles.isEmpty then .error (.fatal .NoProfiles) else .ok ()

/-- Modelled from the spec: Profile::GenerateGuidIfNecessary (not part of the
excerpt) derives a deterministic identifier for a profile that never had
one set; a profile that already has one is untouched. -/
def generateGuidIfNecessary (env : Env) (p : Profile) : Profile :=
  match p.guid with
  | some _ => p
  | none => { p with guid := some (env.gen p) }

/-- CascadiaSettings::_ValidateProfilesHaveGuid (lines 215-222). -/
def ValidateProfilesHaveGuid (env : Env) (s : CascadiaSettings) : CascadiaSettings :=
  { s with profiles := s.profiles.map (generateGuidIfNecessary env) }

/-- The guid-collection lambda of _ReorderProfilesToMatchUserSettingsOrder
(lines 322-334): walk the json profile entries, insert each guid into the
seen set, and push it onto the order deque when the insert succeeded.
The pair carries (uniqueGuids, guidOrder). -/
def collectGuidsAux : List Guid → List Guid × List Guid → List Guid × List Guid
  | [], acc => acc
  | g :: rest, (seen, order) =>
    if g ∈ seen then collectGuidsAux rest (seen, order)
    else collectGuidsAux rest (g :: seen, order ++ [g])

/-- The inner scan of the reorder loop (lines 350-358): the first position at
or after the current one whose profile guid (via Guid().Value()) equals
the target. -/
def findGuidFromAux (g : Guid) : List Profile → Nat → Except ModelError (Option Nat)
  | [], _ => .ok none
  | p :: rest, i => do
    let pg ← guidValue p.guid
    if pg = g then .ok (some i) else findGuidFromAux g rest (i + 1)

/-- The inner scan started at position `start` of the profile list. -/
def findGuidFrom (ps : List Profile) (g : Guid) (start : Nat) : Except ModelError (Option Nat) :=
  findGuidFromAux g (ps.drop start) start

/-- std::iter_swap of two positions of the profile vector (line 355);
identity when either position is out of range. -/
def swapIdx {α : Type} (l : List α) (i j : Nat) : List α :=
  match l[i]?, l[j]? with
  | some a, some b => (l.set i b).set j a
  | _, _ => l

/-- The outer reorder loop (lines 347-359): for each guid of guidOrder, find
it at or after the current position and swap it into the current position. -/
def reorderAux : List Guid → Nat → List Profile → Except ModelError (List Profile)
  | [], _, ps => .ok ps
  | g :: gs, gIndex, ps => do
    let r ← findGuidFrom ps g gIndex
    match r with
    | some pIndex => reorderAux gs (gIndex + 1) (swapIdx ps pIndex gIndex)
    | none => reorderAux gs (gIndex + 1) ps

/-- The full guid order: user settings json first, then default settings
json, sharing one seen set (lines 336-340). -/
def collectGuidOrder (s : CascadiaSettings) : List Guid :=
  (collectGuidsAux s.defaultProfileGuids (collectGuidsAux s.userProfileGuids ([], []))).2

/-- CascadiaSettings::_ReorderProfilesToMatchUserSettingsOrder (lines 317-360). -/
def ReorderProfilesToMatchUserSettingsOrder (s : CascadiaSettings) :
    Except ModelError CascadiaSettings := do
  let ps ← reorderAux (collectGuidOrder s) 0 s.profiles
  .ok { s with profiles := ps }

/-- CascadiaSettings::_RemoveHiddenProfiles (lines 369-390): erase-remove of
the hidden profiles, then throw AllProfilesHidden when none are left. -/
def RemoveHiddenProfiles (s : CascadiaSettings) : Except ModelError CascadiaSettings :=
  let ps := s.profiles.filter fun p => !p.hidden
  if ps.isEmpty then .error (.fatal .AllProfilesHidden)
  else .ok { s with profiles := ps }

/-- The index-collection loop of _ValidateNoDuplicateProfiles (lines 286-293):
positions whose guid insert into the seen set fails, plus the foundDupe
flag. -/
def dupeIndicesAux : List Profile → Nat → List Guid → Except ModelError (List Nat × Bool)
  | [], _, _ => .ok ([], false)
  | p :: rest, i, seen => do
    let g ← guidValue p.guid
    if g ∈ seen then
      let (idxs, _) ← dupeIndicesAux rest (i + 1) seen
      .ok (i :: idxs, true)
    else
      dupeIndicesAux rest (i + 1) (g :: seen)

/-- The erase loop of _ValidateNoDuplicateProfiles (lines 297-300): erase the
marked positions walking backwards over the (ascending) index list. -/
def eraseIndicesBackwards {α : Type} (l : List α) (idxs : List Nat) : List α :=
  idxs.foldr (fun i acc => acc.eraseIdx i) l

/-- CascadiaSettings::_ValidateNoDuplicateProfiles (lines 276-306). -/
def ValidateNoDuplicateProfiles (s : CascadiaSettings) : Except ModelError CascadiaSettings := do
  let (indicesToDelete, foundDupe) ← dupeIndicesAux s.profiles 0 []
  .ok { s with profiles := eraseIndicesBackwards s.profiles indicesToDelete,
               warnings := s.warnings ++ if foundDupe then [.DuplicateProfile] else [] }

/-- The 38-characters-and-leading-brace heuristic of _GetProfileGuidByName
(line 597). -/
def guidShape (name : String) : Bool :=
  name.length == 38 && name.front == '{'

/-- Modelled from the spec: Utils::GuidFromString (not part of the excerpt)
parses the token and signals failure with an exception, which the
function-try-block of the caller catches. -/
def guidFromStringE (name : String) : Except Unit Guid :=
  match guidParse name with
  | some g => .ok g
  | none => .error ()

/-- IReference access `.Value()` inside a try block: null raises the
exception the enclosing catch handles. -/
def guidValueTry : Option Guid → Except Unit Guid
  | some g => .ok g
  | none => .error ()

/-- The body of CascadiaSettings::_GetProfileGuidByName (lines 585-620),
inside the function-level try: a non-empty token that passes the shape
heuristic is parsed (a parse failure escapes as an exception) and accepted
when FindProfile knows the guid; otherwise the token is compared against
each profile name and the first match yields its guid. -/
def GetProfileGuidByNameBody (s : CascadiaSettings) (name : String) :
    Except Unit (Option Guid) := do
  if name = "" then .ok none
  else
    let fromGuid ←
      if guidShape name then do
        let newGuid ← guidFromStringE name
        if (FindProfile s newGuid).isSome then pure (some newGuid) else pure none
      else pure none
    match (fromGuid : Option Guid) with
    | some g => .ok (some g)
    | none =>
      match s.profiles.find? (fun p => p.name == name) with
      | some p => do
        let g ← guidValueTry p.guid
        .ok (some g)
      | none => .ok none

/-- CascadiaSettings::_GetProfileGuidByName (lines 585-625): the
function-try-block logs any exception and returns nullopt. -/
def GetProfileGuidByName (s : CascadiaSettings) (name : String) : Option Guid :=
  match GetProfileGuidByNameBody s name with
  | .ok r => r
  | .error _ => none

/-- CascadiaSettings::_ResolveDefaultProfile (lines 227-236): when an
unparsed default-profile token exists, resolve it with
_GetProfileGuidByName and store the result, the null GUID when the lookup
found nothing (til::coalesce_value with a default-constructed GUID). -/
def ResolveDefaultProfile (s : CascadiaSettings) : CascadiaSettings :=
  match s.globals.unparsedDefaultProfile with
  | none => s
  | some unparsed =>
    let maybeParsed := GetProfileGuidByName s unparsed
    { s with globals := { s.globals with defaultProfile := maybeParsed.getD nullGuid } }

/-- CascadiaSettings::_ValidateDefaultProfileExists (lines 245-268): when the
default is the null GUID or matches no profile, append
MissingDefaultProfile and point the default at the guid of profile 0. -/
def ValidateDefaultProfileExists (s : CascadiaSettings) : Except ModelError CascadiaSettings :=
  let d := s.globals.defaultProfile
  let nullDefaultProfile := d == nullGuid
  let defaultProfileNotInProfiles := !(s.profiles.any fun p => p.guid == some d)
  if nullDefaultProfile || defaultProfileNotInProfiles then do
    let w := s.warnings ++ [.MissingDefaultProfile]
    let p0 ← listGetE s.profiles 0
    let g0 ← guidValue p0.guid
    .ok { s with warnings := w, globals := { s.globals with defaultProfile := g0 } }
  else
    .ok s

/-- The per-profile test of _ValidateAllSchemesExist (lines 407-411): a
non-empty scheme name that the scheme table does not know. -/
def schemeInvalid (schemes : List ColorScheme) (p : Profile) : Bool :=
  p.colorSchemeName != "" && (schemes.find? fun sc => sc.name == p.colorSchemeName).isNone

/-- The per-profile body of _ValidateAllSchemesExist (lines 405-417): a
non-empty scheme name absent from the scheme table is reset to the
hardcoded "Campbell", flagging the warning. -/
def fixSchemeName (schemes : List ColorScheme) (p : Profile) : Profile × Bool :=
  if schemeInvalid schemes p then ({ p with colorSchemeName := "Campbell" }, true)
  else (p, false)

/-- The profile loop of _ValidateAllSchemesExist, accumulating the
foundInvalidScheme flag. -/
def validateSchemesAux (schemes : List ColorScheme) : List Profile → List Profile × Bool
  | [] => ([], false)
  | p :: rest =>
    let (p1, b) := fixSchemeName schemes p
    let (rest1, brest) := validateSchemesAux schemes rest
    (p1 :: rest1, b || brest)

/-- CascadiaSettings::_ValidateAllSchemesExist (lines 402-423). -/
def ValidateAllSchemesExist (s : CascadiaSettings) : CascadiaSettings :=
  let (ps, foundInvalidScheme) := validateSchemesAux s.globals.colorSchemes s.profiles
  { s with profiles := ps,
           warnings := s.warnings ++ if foundInvalidScheme then [.UnknownColorScheme] else [] }

/-- The background-image test of _ValidateMediaResources (lines 443-449): a
non-empty path whose expansion the Uri constructor rejects. -/
def backgroundInvalid (env : Env) (p : Profile) : Bool :=
  p.backgroundImagePath != "" && !(env.uriOk (env.expandEnvVars p.backgroundImagePath))

/-- The icon test of _ValidateMediaResources (lines 459-463). -/
def iconInvalid (env : Env) (p : Profile) : Bool :=
  p.iconPath != "" && !(env.uriOk (env.expandEnvVars p.iconPath))

/-- The per-profile repair of _ValidateMediaResources: reset each failing
path to the empty string. -/
def fixMediaPaths (env : Env) (p : Profile) : Profile :=
  let p1 := if backgroundInvalid env p then { p with backgroundImagePath := "" } else p
  if iconInvalid env p1 then { p1 with iconPath := "" } else p1

/-- The profile loop of _ValidateMediaResources (lines 441-472): a non-empty
background-image or icon path whose expansion is not a valid URI is reset
to the empty string, flagging the matching warning. -/
def validateMediaAux (env : Env) : List Profile → List Profile × Bool × Bool
  | [] => ([], false, false)
  | p :: rest =>
    let (p1, ib) :=
      if backgroundInvalid env p then ({ p with backgroundImagePath := "" }, true)
      else (p, false)
    let (p2, ii) :=
      if iconInvalid env p1 then ({ p1 with iconPath := "" }, true)
      else (p1, false)
    let (rest1, rb, ri) := validateMediaAux env rest
    (p2 :: rest1, ib || rb, ii || ri)

/-- CascadiaSettings::_ValidateMediaResources (lines 436-483). -/
def ValidateMediaResources (env : Env) (s : CascadiaSettings) : CascadiaSettings :=
  let (ps, invalidBackground, invalidIcon) := validateMediaAux env s.profiles
  { s with profiles := ps,
           warnings := s.warnings ++ (if invalidBackground then [.InvalidBackgroundImage] else [])
                                  ++ (if invalidIcon then [.InvalidIcon] else []) }

/-- CascadiaSettings::_ValidateKeybindings (lines 662-671): non-empty
keybinding warnings are appended behind a header warning. -/
def ValidateKeybindings (s : CascadiaSettings) : CascadiaSettings :=
  if s.globals.keybindingsWarnings.isEmpty then s
  else { s with warnings :=
          s.warnings ++ .AtLeastOneKeybindingWarning :: s.globals.keybindingsWarnings }

/-- CascadiaSettings::_ValidateNoGlobalsKey (lines 684-690). -/
def ValidateNoGlobalsKey (s : CascadiaSettings) : CascadiaSettings :=
  if s.userHasGlobalsKey then { s with warnings := s.warnings ++ [.LegacyGlobalsProperty] }
  else s

/-- CascadiaSettings::_ValidateSettings (lines 143-191): clear the warning
list, then run the eleven passes in their documented order. -/
def ValidateSettings (env : Env) (s0 : CascadiaSettings) : Except ModelError CascadiaSettings := do
  let s := { s0 with warnings := [] }
  let _ ← ValidateProfilesExist s
  let s := ValidateProfilesHaveGuid env s
  let s ← ReorderProfilesToMatchUserSettingsOrder s
  let s ← RemoveHiddenProfiles s
  let s ← ValidateNoDuplicateProfiles s
  let s := ResolveDefaultProfile s
  let s ← ValidateDefaultProfileExists s
  let s := ValidateAllSchemesExist s
  let s := ValidateMediaResources env s
  let s := ValidateKeybindings s
  let s := ValidateNoGlobalsKey s
  .ok s

/-- CascadiaSettings::_GetProfileGuidByIndex (lines 637-651): a provided
in-range index yields the guid of that profile; a negative or too-large
index, or no index at all, yields nullopt. -/
def GetProfileGuidByIndex (s : CascadiaSettings) (index : Option Int) :
    Except ModelError (Option Guid) :=
  match index with
  | some realIndex =>
    if 0 ≤ realIndex ∧ realIndex < (s.profiles.length : Int) then do
      let p ← listGetE s.profiles realIndex.toNat
      let g ← guidValue p.guid
      .ok (some g)
    else .ok none
  | none => .ok none

/-- CascadiaSettings::_GetProfileForArgs (lines 563-577): the by-name lookup
wins over the by-index lookup, which wins over the global default
(til::coalesce_value). -/
def GetProfileForArgs (s : CascadiaSettings) (args : Option NewTerminalArgs) :
    Except ModelError Guid :=
  match args with
  | none => .ok s.globals.defaultProfile
  | some a => do
    let profileByIndex ←
      match a.profileIndex with
      | some i => GetProfileGuidByIndex s (some i)
      | none => pure none
    let profileByName := GetProfileGuidByName s a.profile
    .ok ((profileByName.or profileByIndex).getD s.globals.defaultProfile)

/-- CascadiaSettings::GetProfiles (lines 96-99): the span is built from the
address of element 0, an out-of-bounds access when the store is empty. -/
def GetProfiles (s : CascadiaSettings) : Except ModelError (List Profile) := do
  let _ ← listGetE s.profiles 0
  .ok s.profiles

/-- Modelled from the spec: Profile::CreateTerminalSettings (not part of the
excerpt) starts the effective settings from the profile fields and applies
the resolved color scheme. -/
def CreateTerminalSettings (p : Profile) (schemes : List ColorScheme) : TerminalSettings :=
  let base : TerminalSettings :=
    { commandline := p.commandline, startingDirectory := p.startingDirectory,
      startingTitle := p.startingTitle, defaultForeground := 7, defaultBackground := 0,
      initialRows := 30, initialCols := 80 }
  match schemes.find? (fun sc => sc.name == p.colorSchemeName) with
  | some sc => { base with defaultForeground := sc.foreground,
                           defaultBackground := sc.background }
  | none => base

/-- Modelled from the spec: GlobalAppSettings::ApplyToSettings (not part of
the excerpt) layers the cross-cutting global fields onto the settings. -/
def ApplyToSettings (g : GlobalAppSettings) (t : TerminalSettings) : TerminalSettings :=
  { t with initialRows := g.initialRows, initialCols := g.initialCols }

/-- CascadiaSettings::BuildSettings(GUID) (lines 533-545): E_INVALIDARG when
the guid matches no profile. -/
def BuildSettingsForGuid (s : CascadiaSettings) (profileGuid : Guid) :
    Except ModelError TerminalSettings :=
  match FindProfile s profileGuid with
  | none => .error .invalidArg
  | some p => .ok (ApplyToSettings s.globals (CreateTerminalSettings p s.globals.colorSchemes))

/-- The newTerminalArgs override step of BuildSettings(NewTerminalArgs)
(lines 505-520): commandline, starting directory and tab title each
overwrite the settings only when the corresponding argument field is
non-empty. -/
def applyNewTerminalArgsOverrides (args : Option NewTerminalArgs) (t : TerminalSettings) :
    TerminalSettings :=
  match args with
  | none => t
  | some a =>
    let t1 := if a.commandline ≠ "" then { t with commandline := a.commandline } else t
    let t2 := if a.startingDirectory ≠ "" then
                { t1 with startingDirectory := a.startingDirectory } else t1
    if a.tabTitle ≠ "" then { t2 with startingTitle := a.tabTitle } else t2

/-- CascadiaSettings::BuildSettings(NewTerminalArgs) (lines 500-523). -/
def BuildSettings (s : CascadiaSettings) (args : Option NewTerminalArgs) :
    Except ModelError (Guid × TerminalSettings) := do
  let profileGuid ← GetProfileForArgs s args
  let settings ← BuildSettingsForGuid s profileGuid
  .ok (profileGuid, applyNewTerminalArgsOverrides args settings)

/-! ## Specification-side definitions

The following definitions restate, word for word, behaviour the spec (or a
claim derived from it) describes.  They are compared against the code
translations above; they are never used inside those translations. -/

/-- Modelled from the spec: duplicate removal described as an in-order scan
with a set of seen identifiers — the first occurrence of each identifier
survives, every later occurrence is deleted; the flag records whether
anything was deleted at all. -/
def dedupSpec (seen : List Guid) : List Profile → List Profile × Bool
  | [] => ([], false)
  | p :: rest =>
    let g := p.guid.getD nullGuid
    if g ∈ seen then ((dedupSpec seen rest).1, true)
    else (p :: (dedupSpec (g :: seen) rest).1, (dedupSpec (g :: seen) rest).2)

/-- The pure value of the index-collection loop of the duplicate pass,
relative to the start of the list: marked positions plus the foundDupe
flag. -/
def dupeIndicesSpec (seen : List Guid) : List Profile → List Nat × Bool
  | [] => ([], false)
  | p :: rest =>
    let g := p.guid.getD nullGuid
    if g ∈ seen then (0 :: (dupeIndicesSpec seen rest).1.map (· + 1), true)
    else ((dupeIndicesSpec (g :: seen) rest).1.map (· + 1), (dupeIndicesSpec (g :: seen) rest).2)

/-- Modelled from the spec: the identifier sequence of the reorder pass —
identifiers in first-seen order, repeats skipped. -/
def keepFirstGuids (seen : List Guid) : List Guid → List Guid
  | [] => []
  | g :: rest =>
    if g ∈ seen then keepFirstGuids seen rest
    else g :: keepFirstGuids (g :: seen) rest

/-- The pure value of the inner reorder scan: the first position at or after
the offset whose profile guid equals the target. -/
def findGuidFromPure (g : Guid) : List Profile → Nat → Option Nat
  | [], _ => none
  | p :: rest, i => if p.guid = some g then some i else findGuidFromPure g rest (i + 1)

/-- The linear exact-name comparison over the store that the lookup helper
falls back to, expressed as the spec states it: the identifier of the
first profile whose name equals the token. -/
def nameMatchSpec (s : CascadiaSettings) (token : String) : Option Guid :=
  (s.profiles.find? fun p => p.name == token).bind fun p => p.guid

/-- Modelled from the claim: the lookup as claim C5 words it — the token is
used as an identifier literal only when shape, parse and existence all
succeed, and in every other case (any of the three steps failing) the
lookup falls back to the linear name comparison. -/
def lookupByNameOrIdentifierClaim (s : CascadiaSettings) (token : String) : Option Guid :=
  if guidShape token then
    match guidParse token with
    | some g => if (FindProfile s g).isSome then some g else nameMatchSpec s token
    | none => nameMatchSpec s token
  else nameMatchSpec s token

/-- The actual behaviour of the lookup helper: as the claim, except that a
token that passes the shape heuristic but fails to parse makes the lookup
return nothing without attempting the name comparison (the parse failure
is an exception that the function-level catch turns into nullopt), and an
empty token returns nothing. -/
def lookupByNameOrIdentifierSpec (s : CascadiaSettings) (token : String) : Option Guid :=
  if token = "" then none
  else if guidShape token then
    match guidParse token with
    | some g => if (FindProfile s g).isSome then some g else nameMatchSpec s token
    | none => none
  else nameMatchSpec s token

/-- The index lookup as the spec states it: an absent, negative or
out-of-range index produces no match. -/
def indexMatchSpec (s : CascadiaSettings) (index : Option Int) : Option Guid :=
  match index with
  | some i =>
    if 0 ≤ i ∧ i < (s.profiles.length : Int) then (s.profiles[i.toNat]?).bind fun p => p.guid
    else none
  | none => none

/-- Modelled from the claim: the resolution precedence as claim C4 words it —
token by identifier literal (shape, parse and existence all succeeding),
else token by exact name, else index, else the global default. -/
def resolveForArgsClaim (s : CascadiaSettings) (args : Option NewTerminalArgs) : Guid :=
  match args with
  | none => s.globals.defaultProfile
  | some a =>
    let tokenMatch := if a.profile = "" then none else lookupByNameOrIdentifierClaim s a.profile
    ((tokenMatch.or (indexMatchSpec s a.profileIndex)).getD s.globals.defaultProfile)

/-- The actual resolution precedence: as the claim, except that the token
lookup is the actual lookup helper behaviour
(lookupByNameOrIdentifierSpec). -/
def resolveForArgsSpec (s : CascadiaSettings) (args : Option NewTerminalArgs) : Guid :=
  match args with
  | none => s.globals.defaultProfile
  | some a =>
    ((lookupByNameOrIdentifierSpec s a.profile).or (indexMatchSpec s a.profileIndex)).getD
      s.globals.defaultProfile

/-- The identifier key of each profile, in store order (a null-guid default
stands in for a never-assigned identifier). -/
def guidKeys (ps : List Profile) : List Guid :=
  ps.map fun p => p.guid.getD nullGuid

/-- The invariant the reorder pass establishes for every surviving store: a
profile carrying the j-th identifier of the collected order sits at
position at most j.  It is what makes a second reorder run the identity. -/
def ReorderInv (order : List Guid) (n : Nat) (ps : List Profile) : Prop :=
  ∀ j g i p, j < n → order[j]? = some g → ps[i]? = some p → p.guid = some g → i ≤ j

/-! ## Concrete states used by witnesses and counterexamples -/

/-- A deterministic environment for concrete runs: derived guids are built
from the profile name, every path expands to itself and is a valid URI. -/
def env0 : Env :=
  { gen := fun p => "gen:" ++ p.name, expandEnvVars := id, uriOk := fun _ => true }

/-- A profile with the given identifier and name and neutral remaining
fields. -/
def mkProfile (g : Option Guid) (n : String) : Profile :=
  { guid := g, name := n, hidden := false, colorSchemeName := "", iconPath := "",
    backgroundImagePath := "", commandline := "profile-cmd", startingDirectory := "profile-dir",
    startingTitle := "profile-title" }

/-- Neutral global settings with the given default-profile identifier and the
Campbell scheme present. -/
def mkGlobals (d : Guid) : GlobalAppSettings :=
  { unparsedDefaultProfile := none, defaultProfile := d,
    colorSchemes := [{ name := "Campbell", foreground := 7, background := 0 }],
    keybindingsWarnings := [], initialRows := 30, initialCols := 80 }

/-- A settings state over the given profiles and globals, with empty json
blobs. -/
def mkState (ps : List Profile) (g : GlobalAppSettings) : CascadiaSettings :=
  { profiles := ps, globals := g, warnings := [], userProfileGuids := [],
    defaultProfileGuids := [], userHasGlobalsKey := false }

/-- A token that passes the 38-characters-and-leading-brace heuristic but is
not a parseable GUID. -/
def badShapedToken : String := "{zzzzzzzz-zzzz-zzzz-zzzz-zzzzzzzzzzzz}"

/-- A parseable GUID literal. -/
def guidA : Guid := "{6239a42c-1de4-49a3-80bd-e8fdd045185c}"

/-- A second parseable GUID literal. -/
def guidB : Guid := "{b453ae62-4e3d-5e58-b989-0a998ec441b8}"

/-- A third parseable GUID literal. -/
def guidC : Guid := "{c6eaf9f4-32a7-5fdc-b5a8-24b55d89e9b6}"

/-- A store whose single profile is literally named like a malformed GUID
token: the input on which the actual lookup and the claimed lookup
diverge. -/
def cexLookupState : CascadiaSettings :=
  mkState [mkProfile (some guidA) badShapedToken] (mkGlobals guidB)

/-- Resolver arguments carrying the malformed identifier-shaped token and no
index. -/
def cexResolveArgs : NewTerminalArgs :=
  { profileIndex := none, profile := badShapedToken, commandline := "",
    startingDirectory := "", tabTitle := "" }

/-- Resolver arguments carrying only an index of 5. -/
def indexFiveArgs : NewTerminalArgs :=
  { profileIndex := some 5, profile := "", commandline := "",
    startingDirectory := "", tabTitle := "" }

/-- A validated-looking store of three distinct profiles used by the resolver
witnesses. -/
def threeProfileState : CascadiaSettings :=
  mkState [mkProfile (some guidA) "alpha", mkProfile (some guidB) "beta",
           mkProfile (some guidC) "gamma"] (mkGlobals guidA)

/-- A store with a duplicated identifier for the duplicate-removal witness. -/
def dupState : CascadiaSettings :=
  mkState [mkProfile (some guidA) "first", mkProfile (some guidA) "second",
           mkProfile (some guidB) "third"] (mkGlobals guidA)

/-- A non-empty store whose default-profile identifier dangles, for the
default-profile witness. -/
def danglingDefaultState : CascadiaSettings :=
  mkState [mkProfile (some guidA) "alpha", mkProfile (some guidB) "beta"] (mkGlobals guidC)

/-- The profiles of the reorder scenario: user settings declare A then B, the
default settings declare A again and C; the store holds the user profiles
first, then the default-originated ones. -/
def scenarioProfileA : Profile := mkProfile (some guidA) "user-a"

/-- Second scenario profile. -/
def scenarioProfileB : Profile := mkProfile (some guidB) "user-b"

/-- The default-settings copy of profile A in the reorder scenario. -/
def scenarioProfileA2 : Profile := mkProfile (some guidA) "default-a"

/-- The default-settings profile C in the reorder scenario. -/
def scenarioProfileC : Profile := mkProfile (some guidC) "default-c"

/-- The reorder scenario state: store [A, B, A, C], user json order [A, B],
default json order [A, C]. -/
def scenarioState : CascadiaSettings :=
  { profiles := [scenarioProfileA, scenarioProfileB, scenarioProfileA2, scenarioProfileC],
    globals := mkGlobals guidA, warnings := [], userProfileGuids := [guidA, guidB],
    defaultProfileGuids := [guidA, guidC], userHasGlobalsKey := false }

/-- A state that validates successfully but carries a keybinding warning: the
input on which a second validation run re-emits warnings. -/
def kbWarningState : CascadiaSettings :=
  mkState [mkProfile (some guidA) "alpha"]
    { mkGlobals guidA with keybindingsWarnings := [.TooManyKeysForChord] }

/-- A clean one-profile state on which validation is a fixed point, used by
the idempotence witness. -/
def cleanState : CascadiaSettings :=
  { profiles := [mkProfile (some guidA) "alpha"], globals := mkGlobals guidA,
    warnings := [], userProfileGuids := [guidA], defaultProfileGuids := [],
    userHasGlobalsKey := false }

/-- A state whose identifier A is carried by both a hidden profile and a
visible one: the first run keeps order [b, a2], the second run swaps it to
[a2, b], so even the profile order is not idempotent. -/
def hiddenDupState : CascadiaSettings :=
  { profiles := [{ mkProfile (some guidA) "a1" with hidden := true },
                 mkProfile (some guidB) "b", mkProfile (some guidA) "a2"],
    globals := mkGlobals guidB, warnings := [], userProfileGuids := [guidA, guidB],
    defaultProfileGuids := [], userHasGlobalsKey := false }

/-! ## List and monad utilities -/

@[simp]
theorem exceptBindOk {ε α β : Type} (a : α) (f : α → Except ε β) :
    (Except.ok a >>= f : Except ε β) = f a := rfl

@[simp]
theorem exceptBindErr {ε α β : Type} (e : ε) (f : α → Except ε β) :
    (Except.error e >>= f : Except ε β) = Except.error e := rfl

theorem set_of_getElem? {α : Type} (l : List α) (i : Nat) (a : α)
    (h : l[i]? = some a) : l.set i a = l := by
  induction l generalizing i with
  | nil => simp at h
  | cons x xs ih =>
    cases i with
    | zero => simp_all
    | succ n =>
      simp only [List.getElem?_cons_succ] at h
      simp [ih n h]

theorem swapIdx_self {α : Type} (l : List α) (i : Nat) : swapIdx l i i = l := by
  cases h : l[i]? with
  | none => simp [swapIdx, h]
  | some a =>
    simp only [swapIdx, h]
    rw [List.set_set, set_of_getElem? l i a h]

theorem swapIdx_perm {α : Type} [DecidableEq α] (l : List α) (i j : Nat) :
    (swapIdx l i j).Perm l := by
  by_cases hij : i = j
  · subst hij; rw [swapIdx_self]
  unfold swapIdx
  cases hi : l[i]? with
  | none => exact List.Perm.refl l
  | some a =>
    cases hj : l[j]? with
    | none => exact List.Perm.refl l
    | some b =>
      obtain ⟨hilen, hia⟩ := List.getElem?_eq_some_iff.mp hi
      obtain ⟨hjlen, hjb⟩ := List.getElem?_eq_some_iff.mp hj
      rw [List.perm_iff_count]
      intro x
      have h1 : j < (l.set i b).length := by simpa using hjlen
      have h2 : (l.set i b)[j] = b := by
        rw [List.getElem_set_ne hij]
        exact hjb
      rw [List.count_set a x (l.set i b) j h1, List.count_set b x l i hilen, h2, hia]
      have hmem : a ∈ l := hia ▸ List.getElem_mem hilen
      have hcount : (if a = x then 1 else 0) ≤ l.count x := by
        split
        · next hax => subst hax; exact List.count_pos_iff.mpr hmem
        · exact Nat.zero_le _
      simp only [beq_iff_eq]
      split_ifs at hcount ⊢ <;> omega

theorem getElem?_swapIdx {α : Type} (l : List α) (i j m : Nat) (a b : α)
    (hi : l[i]? = some a) (hj : l[j]? = some b) :
    (swapIdx l i j)[m]? = if m = j then some a else if m = i then some b else l[m]? := by
  obtain ⟨hilen, hia⟩ := List.getElem?_eq_some_iff.mp hi
  obtain ⟨hjlen, hjb⟩ := List.getElem?_eq_some_iff.mp hj
  unfold swapIdx
  rw [hi, hj]
  rw [List.getElem?_set, List.getElem?_set]
  have hjlen2 : j < (l.set i b).length := by simpa using hjlen
  by_cases hmj : m = j
  · subst hmj; simp [hjlen, hjlen2]
  · by_cases hmi : m = i
    · subst hmi
      simp [Ne.symm hmj, hmj, hilen, hi, hj]
    · simp [Ne.symm hmj, Ne.symm hmi, hmj, hmi]

theorem filter_getElem?_origin {α : Type} (l : List α) (f : α → Bool) (i : Nat) (x : α)
    (h : (l.filter f)[i]? = some x) : ∃ i0, i ≤ i0 ∧ l[i0]? = some x := by
  induction l generalizing i with
  | nil => simp at h
  | cons a rest ih =>
    rw [List.filter_cons] at h
    by_cases hfa : f a
    · rw [if_pos hfa] at h
      cases i with
      | zero =>
        refine ⟨0, Nat.le_refl 0, ?_⟩
        simpa using h
      | succ n =>
        simp only [List.getElem?_cons_succ] at h
        obtain ⟨i0, hle, hget⟩ := ih n h
        exact ⟨i0 + 1, Nat.succ_le_succ hle, by simpa using hget⟩
    · rw [if_neg hfa] at h
      obtain ⟨i0, hle, hget⟩ := ih i h
      exact ⟨i0 + 1, Nat.le_succ_of_le hle, by simpa using hget⟩

theorem map_eq_self_of_id {α : Type} (l : List α) (f : α → α)
    (h : ∀ x ∈ l, f x = x) : l.map f = l := by
  induction l with
  | nil => rfl
  | cons a rest ih =>
    simp only [List.map_cons, h a (by simp)]
    rw [ih fun x hx => h x (by simp [hx])]

/-! ## The inner reorder scan -/

theorem findGuidFromAux_eq_pure (g : Guid) (l : List Profile) (i : Nat)
    (h : ∀ p ∈ l, p.guid.isSome) :
    findGuidFromAux g l i = .ok (findGuidFromPure g l i) := by
  induction l generalizing i with
  | nil => rfl
  | cons p rest ih =>
    obtain ⟨pg, hpg⟩ := Option.isSome_iff_exists.mp (h p (by simp))
    have hrest : ∀ q ∈ rest, q.guid.isSome := fun q hq => h q (by simp [hq])
    simp only [findGuidFromAux, findGuidFromPure, hpg, guidValue]
    by_cases hg : pg = g
    · subst hg; simp [hpg]
    · have hne : ¬(p.guid = some g) := by rw [hpg]; simpa using hg
      simp [hg, hne, ih _ hrest]

theorem findGuidFromPure_some (g : Guid) (l : List Profile) (i m : Nat)
    (h : findGuidFromPure g l i = some m) :
    ∃ (k : Nat) (p : Profile), m = i + k ∧ l[k]? = some p ∧ p.guid = some g := by
  induction l generalizing i with
  | nil => simp [findGuidFromPure] at h
  | cons p rest ih =>
    rw [findGuidFromPure] at h
    by_cases hpg : p.guid = some g
    · rw [if_pos hpg] at h
      obtain rfl : i = m := by simpa using h
      exact ⟨0, p, by simp, by simp, hpg⟩
    · rw [if_neg hpg] at h
      obtain ⟨k, q, hm, hget, hguid⟩ := ih (i + 1) h
      exact ⟨k + 1, q, by omega, by simpa using hget, hguid⟩

theorem findGuidFromPure_none (g : Guid) (l : List Profile) (i : Nat) :
    findGuidFromPure g l i = none ↔
      ∀ (k : Nat) (p : Profile), l[k]? = some p → p.guid ≠ some g := by
  induction l generalizing i with
  | nil => simp [findGuidFromPure]
  | cons p rest ih =>
    rw [findGuidFromPure]
    by_cases hpg : p.guid = some g
    · rw [if_pos hpg]
      constructor
      · intro h; simp at h
      · intro h
        exact absurd hpg (h 0 p (by simp))
    · rw [if_neg hpg, ih (i + 1)]
      constructor
      · intro h k q hget
        cases k with
        | zero =>
          intro hguid
          obtain rfl : p = q := by simpa using hget
          exact hpg hguid
        | succ n =>
          exact h n q (by simpa using hget)
      · intro h k q hget
        exact h (k + 1) q (by simpa using hget)

/-! ## The duplicate-removal pass -/

theorem dupeIndicesAux_shift (l : List Profile) (i : Nat) (seen : List Guid) :
    dupeIndicesAux l (i + 1) seen =
      (dupeIndicesAux l i seen).map fun r => (r.1.map (· + 1), r.2) := by
  induction l generalizing i seen with
  | nil => rfl
  | cons p rest ih =>
    cases hg : p.guid with
    | none => simp [dupeIndicesAux, guidValue, hg, Except.map]
    | some g =>
      simp only [dupeIndicesAux, guidValue, hg, exceptBindOk]
      by_cases hmem : g ∈ seen
      · rw [if_pos hmem, if_pos hmem, ih, ih]
        cases hrec : dupeIndicesAux rest i seen with
        | error e => simp [Except.map]
        | ok r => simp [Except.map]
      · rw [if_neg hmem, if_neg hmem, ih]

theorem dupeIndicesAux_eq_spec (l : List Profile) (seen : List Guid)
    (h : ∀ p ∈ l, p.guid.isSome) :
    dupeIndicesAux l 0 seen = .ok (dupeIndicesSpec seen l) := by
  induction l generalizing seen with
  | nil => rfl
  | cons p rest ih =>
    obtain ⟨g, hg⟩ := Option.isSome_iff_exists.mp (h p (by simp))
    have hrest : ∀ q ∈ rest, q.guid.isSome := fun q hq => h q (by simp [hq])
    simp only [dupeIndicesAux, guidValue, hg, exceptBindOk, dupeIndicesSpec, Option.getD_some]
    by_cases hmem : g ∈ seen
    · rw [if_pos hmem, if_pos hmem, dupeIndicesAux_shift, ih seen hrest]
      simp [Except.map]
    · rw [if_neg hmem, if_neg hmem, dupeIndicesAux_shift, ih (g :: seen) hrest]
      simp [Except.map]

theorem eraseIndicesBackwards_map_succ {α : Type} (p : α) (rest : List α) (idxs : List Nat) :
    eraseIndicesBackwards (p :: rest) (idxs.map (· + 1)) = p :: eraseIndicesBackwards rest idxs := by
  induction idxs with
  | nil => rfl
  | cons i m ih =>
    simp only [List.map_cons, eraseIndicesBackwards, List.foldr_cons] at ih ⊢
    rw [ih, List.eraseIdx_cons_succ]

theorem erase_dupeIndices_eq_dedup (l : List Profile) (seen : List Guid) :
    eraseIndicesBackwards l (dupeIndicesSpec seen l).1 = (dedupSpec seen l).1 ∧
      (dupeIndicesSpec seen l).2 = (dedupSpec seen l).2 := by
  induction l generalizing seen with
  | nil => exact ⟨rfl, rfl⟩
  | cons p rest ih =>
    simp only [dupeIndicesSpec, dedupSpec]
    by_cases hmem : p.guid.getD nullGuid ∈ seen
    · rw [if_pos hmem, if_pos hmem]
      refine ⟨?_, rfl⟩
      show eraseIndicesBackwards (p :: rest)
        (0 :: (dupeIndicesSpec seen rest).1.map (· + 1)) = _
      simp only [eraseIndicesBackwards, List.foldr_cons]
      rw [show ((dupeIndicesSpec seen rest).1.map (· + 1)).foldr
            (fun i acc => acc.eraseIdx i) (p :: rest) =
          eraseIndicesBackwards (p :: rest) ((dupeIndicesSpec seen rest).1.map (· + 1)) from rfl]
      rw [eraseIndicesBackwards_map_succ, List.eraseIdx_cons_zero]
      exact (ih seen).1
    · rw [if_neg hmem, if_neg hmem]
      refine ⟨?_, (ih _).2⟩
      rw [eraseIndicesBackwards_map_succ]
      rw [(ih _).1]

theorem dedup_pass_spec (s : CascadiaSettings)
    (h : ∀ p ∈ s.profiles, p.guid.isSome) :
    ValidateNoDuplicateProfiles s =
      .ok { s with profiles := (dedupSpec [] s.profiles).1,
                   warnings := s.warnings ++
                     if (dedupSpec [] s.profiles).2 then [.DuplicateProfile] else [] } := by
  unfold ValidateNoDuplicateProfiles
  rw [dupeIndicesAux_eq_spec _ _ h]
  simp only [exceptBindOk]
  rw [(erase_dupeIndices_eq_dedup s.profiles []).1, (erase_dupeIndices_eq_dedup s.profiles []).2]

theorem dedupSpec_sublist (l : List Profile) (seen : List Guid) :
    (dedupSpec seen l).1.Sublist l := by
  induction l generalizing seen with
  | nil => simp [dedupSpec]
  | cons p rest ih =>
    simp only [dedupSpec]
    by_cases hmem : p.guid.getD nullGuid ∈ seen
    · rw [if_pos hmem]
      exact (ih seen).cons p
    · rw [if_neg hmem]
      exact (ih _).cons₂ p

theorem dedupSpec_flag_length (l : List Profile) (seen : List Guid)
    (h : (dedupSpec seen l).2 = true) : (dedupSpec seen l).1.length < l.length := by
  induction l generalizing seen with
  | nil => simp [dedupSpec] at h
  | cons p rest ih =>
    simp only [dedupSpec] at h ⊢
    by_cases hmem : p.guid.getD nullGuid ∈ seen
    · rw [if_pos hmem]
      have hle := (dedupSpec_sublist rest seen).length_le
      simp only [List.length_cons]
      omega
    · rw [if_neg hmem] at h ⊢
      have := ih _ h
      simp only [List.length_cons]
      omega

theorem dedupSpec_flag_false (l : List Profile) (seen : List Guid)
    (h : (dedupSpec seen l).2 = false) : (dedupSpec seen l).1 = l := by
  induction l generalizing seen with
  | nil => simp [dedupSpec]
  | cons p rest ih =>
    simp only [dedupSpec] at h ⊢
    by_cases hmem : p.guid.getD nullGuid ∈ seen
    · rw [if_pos hmem] at h
      cases h
    · rw [if_neg hmem] at h ⊢
      rw [ih _ h]

theorem dedupSpec_flag_iff (l : List Profile) :
    (dedupSpec [] l).2 = true ↔ (dedupSpec [] l).1 ≠ l := by
  constructor
  · intro h heq
    have := dedupSpec_flag_length l [] h
    rw [heq] at this
    omega
  · intro h
    cases hb : (dedupSpec [] l).2 with
    | true => rfl
    | false => exact absurd (dedupSpec_flag_false l [] hb) h

theorem dedupSpec_eq_self (l : List Profile) (seen : List Guid)
    (hd : (guidKeys l).Nodup) (hs : ∀ p ∈ l, p.guid.getD nullGuid ∉ seen) :
    dedupSpec seen l = (l, false) := by
  induction l generalizing seen with
  | nil => rfl
  | cons p rest ih =>
    simp only [guidKeys, List.map_cons, List.nodup_cons] at hd
    simp only [dedupSpec]
    rw [if_neg (hs p (by simp))]
    have hrest : dedupSpec (p.guid.getD nullGuid :: seen) rest = (rest, false) := by
      refine ih _ hd.2 fun q hq => ?_
      simp only [List.mem_cons]
      push_neg
      refine ⟨?_, hs q (by simp [hq])⟩
      intro heq
      exact hd.1 (heq ▸ List.mem_map_of_mem _ hq)

    rw [hrest]

/-! ## The scheme and media passes -/

theorem validateSchemesAux_spec (schemes : List ColorScheme) (l : List Profile) :
    validateSchemesAux schemes l =
      (l.map fun p => (fixSchemeName schemes p).1,
       l.any fun p => (fixSchemeName schemes p).2) := by
  induction l with
  | nil => rfl
  | cons p rest ih =>
    simp only [validateSchemesAux, ih, List.map_cons, List.any_cons]

theorem schemes_pass_spec (s : CascadiaSettings) :
    ValidateAllSchemesExist s =
      { s with profiles := s.profiles.map fun p => (fixSchemeName s.globals.colorSchemes p).1,
               warnings := s.warnings ++
                 if s.profiles.any fun p => (fixSchemeName s.globals.colorSchemes p).2 then
                   [.UnknownColorScheme] else [] } := by
  unfold ValidateAllSchemesExist
  rw [validateSchemesAux_spec]

theorem iconInvalid_bgfix (env : Env) (p : Profile) :
    iconInvalid env (if backgroundInvalid env p then { p with backgroundImagePath := "" } else p) =
      iconInvalid env p := by
  split <;> rfl

theorem validateMediaAux_spec (env : Env) (l : List Profile) :
    validateMediaAux env l =
      (l.map (fixMediaPaths env),
       l.any (backgroundInvalid env),
       l.any (iconInvalid env)) := by
  induction l with
  | nil => rfl
  | cons p rest ih =>
    simp only [validateMediaAux, ih, List.map_cons, List.any_cons, fixMediaPaths]
    by_cases hbg : backgroundInvalid env p
    · simp only [hbg, if_true, Bool.true_or]
      by_cases hic : iconInvalid env { p with backgroundImagePath := "" }
      · have hic2 : iconInvalid env p = true := by
          rw [← iconInvalid_bgfix env p, if_pos hbg]; exact hic
        simp [hbg, hic, hic2]
      · have hic2 : iconInvalid env p = false := by
          rw [← iconInvalid_bgfix env p, if_pos hbg]; simpa using hic
        simp [hbg, hic, hic2]
    · by_cases hic : iconInvalid env p
      · simp [hbg, hic]
      · simp [hbg, hic]

theorem media_pass_spec (env : Env) (s : CascadiaSettings) :
    ValidateMediaResources env s =
      { s with profiles := s.profiles.map (fixMediaPaths env),
               warnings := s.warnings ++
                 (if s.profiles.any (backgroundInvalid env) then [.InvalidBackgroundImage] else [])
                 ++ (if s.profiles.any (iconInvalid env) then [.InvalidIcon] else []) } := by
  unfold ValidateMediaResources
  rw [validateMediaAux_spec]

/-! ## The name and index lookups -/

theorem getProfileGuidByName_eq_spec (s : CascadiaSettings) (token : String)
    (h : ∀ p ∈ s.profiles, p.guid.isSome) :
    GetProfileGuidByName s token = lookupByNameOrIdentifierSpec s token := by
  have hname : (s.profiles.find? fun p => p.name == token) = none ∨
      ∃ p g, (s.profiles.find? fun p => p.name == token) = some p ∧ p.guid = some g := by
    cases hfind : s.profiles.find? fun p => p.name == token with
    | none => exact Or.inl rfl
    | some p =>
      obtain ⟨g, hg⟩ :=
        Option.isSome_iff_exists.mp (h p (List.mem_of_find?_eq_some hfind))
      exact Or.inr ⟨p, g, rfl, hg⟩
  unfold GetProfileGuidByName GetProfileGuidByNameBody lookupByNameOrIdentifierSpec nameMatchSpec
  by_cases h0 : token = ""
  · simp [h0]
  · rw [if_neg h0, if_neg h0]
    by_cases hshape : guidShape token
    · rw [if_pos hshape, if_pos hshape]
      cases hparse : guidParse token with
      | none => simp [guidFromStringE, hparse]
      | some g =>
        simp only [guidFromStringE, hparse, exceptBindOk]
        by_cases hfound : (FindProfile s g).isSome
        · simp [hfound]
        · simp only [hfound, if_false, Bool.false_eq_true, if_neg]
          rcases hname with hnone | ⟨p, pg, hfind, hpg⟩
          · simp [hnone, hfound]
          · simp [hfind, hpg, guidValueTry, hfound]
    · rw [if_neg hshape, if_neg hshape]
      rcases hname with hnone | ⟨p, pg, hfind, hpg⟩
      · simp [hnone]
      · simp [hfind, hpg, guidValueTry]

theorem getProfileGuidByIndex_eq_spec (s : CascadiaSettings) (idx : Option Int)
    (h : ∀ p ∈ s.profiles, p.guid.isSome) :
    GetProfileGuidByIndex s idx = .ok (indexMatchSpec s idx) := by
  cases idx with
  | none => rfl
  | some i =>
    simp only [GetProfileGuidByIndex, indexMatchSpec]
    by_cases hin : 0 ≤ i ∧ i < (s.profiles.length : Int)
    · rw [if_pos hin, if_pos hin]
      have hlt : i.toNat < s.profiles.length := (Int.toNat_lt hin.1).mpr hin.2
      have hp : s.profiles[i.toNat]? = some s.profiles[i.toNat] :=
        List.getElem?_eq_getElem hlt
      obtain ⟨g, hg⟩ :=
        Option.isSome_iff_exists.mp (h s.profiles[i.toNat] (List.getElem_mem hlt))
      simp [listGetE, hp, hg, guidValue]
    · rw [if_neg hin, if_neg hin]

theorem getProfileForArgs_eq_spec (s : CascadiaSettings) (args : Option NewTerminalArgs)
    (h : ∀ p ∈ s.profiles, p.guid.isSome) :
    GetProfileForArgs s args = .ok (resolveForArgsSpec s args) := by
  cases args with
  | none => rfl
  | some a =>
    simp only [GetProfileForArgs, resolveForArgsSpec]
    cases hai : a.profileIndex with
    | none =>
      simp only [pure, Except.pure, exceptBindOk]
      rw [getProfileGuidByName_eq_spec s _ h]
      simp [indexMatchSpec]
    | some i =>
      dsimp only
      rw [getProfileGuidByIndex_eq_spec s (some i) h]
      simp only [exceptBindOk]
      rw [getProfileGuidByName_eq_spec s _ h]

/-! ## The identifier-collection of the reorder pass -/

theorem collectGuidsAux_spec (l : List Guid) (seen order : List Guid) :
    ∃ seen2, collectGuidsAux l (seen, order) = (seen2, order ++ keepFirstGuids seen l) ∧
      ∀ g, g ∈ seen2 ↔ g ∈ seen ∨ g ∈ l := by
  induction l generalizing seen order with
  | nil => exact ⟨seen, by simp [collectGuidsAux, keepFirstGuids], fun g => by simp⟩
  | cons g rest ih =>
    simp only [collectGuidsAux, keepFirstGuids]
    by_cases hmem : g ∈ seen
    · rw [if_pos hmem, if_pos hmem]
      obtain ⟨s2, heq, hiff⟩ := ih seen order
      refine ⟨s2, heq, fun x => ?_⟩
      rw [hiff]
      constructor
      · rintro (hx | hx)
        · exact Or.inl hx
        · exact Or.inr (List.mem_cons_of_mem g hx)
      · rintro (hx | hx)
        · exact Or.inl hx
        · rcases List.mem_cons.mp hx with rfl | hx
          · exact Or.inl hmem
          · exact Or.inr hx
    · rw [if_neg hmem, if_neg hmem]
      obtain ⟨s2, heq, hiff⟩ := ih (g :: seen) (order ++ [g])
      refine ⟨s2, ?_, fun x => ?_⟩
      · rw [heq, List.append_assoc]
        rfl
      · rw [hiff]
        simp only [List.mem_cons]
        tauto

theorem keepFirstGuids_congr (l : List Guid) (s1 s2 : List Guid)
    (h : ∀ g, g ∈ s1 ↔ g ∈ s2) : keepFirstGuids s1 l = keepFirstGuids s2 l := by
  induction l generalizing s1 s2 with
  | nil => rfl
  | cons g rest ih =>
    simp only [keepFirstGuids]
    by_cases hmem : g ∈ s1
    · rw [if_pos hmem, if_pos ((h g).mp hmem)]
      exact ih s1 s2 h
    · rw [if_neg hmem, if_neg (fun hx => hmem ((h g).mpr hx))]
      refine congrArg (g :: ·) (ih _ _ fun x => ?_)
      simp only [List.mem_cons]
      rw [h x]

theorem keepFirstGuids_append_congr (l1 l2 : List Guid) (seen s2 : List Guid)
    (h : ∀ g, g ∈ s2 ↔ g ∈ seen ∨ g ∈ l1) :
    keepFirstGuids seen (l1 ++ l2) = keepFirstGuids seen l1 ++ keepFirstGuids s2 l2 := by
  induction l1 generalizing seen with
  | nil =>
    simp only [List.nil_append, keepFirstGuids]
    exact keepFirstGuids_congr l2 seen s2 fun g => by
      rw [h g]; simp
  | cons g rest ih =>
    simp only [List.cons_append, keepFirstGuids]
    by_cases hmem : g ∈ seen
    · rw [if_pos hmem, if_pos hmem]
      refine ih seen fun x => ?_
      rw [h x]
      simp only [List.mem_cons]
      constructor
      · rintro (hx | rfl | hx)
        · exact Or.inl hx
        · exact Or.inl hmem
        · exact Or.inr hx
      · tauto
    · rw [if_neg hmem, if_neg hmem, List.cons_append]
      refine congrArg (g :: ·) (ih (g :: seen) fun x => ?_)
      rw [h x]
      simp only [List.mem_cons]
      tauto

theorem collectGuidOrder_spec (s : CascadiaSettings) :
    collectGuidOrder s = keepFirstGuids [] (s.userProfileGuids ++ s.defaultProfileGuids) := by
  unfold collectGuidOrder
  obtain ⟨s2, heq, hiff⟩ := collectGuidsAux_spec s.userProfileGuids [] []
  rw [heq]
  obtain ⟨s3, heq2, _⟩ :=
    collectGuidsAux_spec s.defaultProfileGuids s2 ([] ++ keepFirstGuids [] s.userProfileGuids)
  rw [heq2]
  simp only [List.nil_append]
  rw [keepFirstGuids_append_congr s.userProfileGuids s.defaultProfileGuids [] s2 hiff]

theorem keepFirstGuids_nodup (l : List Guid) (seen : List Guid) :
    (keepFirstGuids seen l).Nodup ∧ ∀ g ∈ keepFirstGuids seen l, g ∉ seen := by
  induction l generalizing seen with
  | nil => simp [keepFirstGuids]
  | cons g rest ih =>
    simp only [keepFirstGuids]
    by_cases hmem : g ∈ seen
    · rw [if_pos hmem]
      exact ih seen
    · rw [if_neg hmem]
      obtain ⟨hnd, hnotin⟩ := ih (g :: seen)
      refine ⟨List.nodup_cons.mpr ⟨fun hx => ?_, hnd⟩, fun x hx => ?_⟩
      · exact hnotin g hx (by simp)
      · rcases List.mem_cons.mp hx with rfl | hx
        · exact hmem
        · exact fun hxs => hnotin x hx (by simp [hxs])

/-! ## Pipeline stage facts -/

theorem generateGuidIfNecessary_isSome (env : Env) (p : Profile) :
    (generateGuidIfNecessary env p).guid.isSome := by
  unfold generateGuidIfNecessary
  cases hp : p.guid <;> simp [hp]

theorem generateGuidIfNecessary_hidden (env : Env) (p : Profile) :
    (generateGuidIfNecessary env p).hidden = p.hidden := by
  unfold generateGuidIfNecessary
  cases hp : p.guid <;> rfl

theorem generateGuidIfNecessary_of_isSome (env : Env) (p : Profile) (h : p.guid.isSome) :
    generateGuidIfNecessary env p = p := by
  unfold generateGuidIfNecessary
  cases hp : p.guid
  · rw [hp] at h; simp at h
  · rfl

theorem assign_profiles_allSome (env : Env) (s : CascadiaSettings) :
    ∀ p ∈ (ValidateProfilesHaveGuid env s).profiles, p.guid.isSome := by
  intro p hp
  simp only [ValidateProfilesHaveGuid] at hp
  obtain ⟨q, _, rfl⟩ := List.mem_map.mp hp
  exact generateGuidIfNecessary_isSome env q

theorem assign_id_of_allSome (env : Env) (s : CascadiaSettings)
    (h : ∀ p ∈ s.profiles, p.guid.isSome) :
    ValidateProfilesHaveGuid env s = s := by
  unfold ValidateProfilesHaveGuid
  rw [map_eq_self_of_id _ _ fun p hp => generateGuidIfNecessary_of_isSome env p (h p hp)]

theorem forall_hidden_map (env : Env) (l : List Profile) :
    (∀ p ∈ l.map (generateGuidIfNecessary env), p.hidden = true) ↔
      (∀ p ∈ l, p.hidden = true) := by
  rw [List.forall_mem_map]
  constructor
  · intro h p hp
    rw [← generateGuidIfNecessary_hidden env p]
    exact h p hp
  · intro h p hp
    rw [generateGuidIfNecessary_hidden env p]
    exact h p hp

theorem reorderAux_ok_perm (order : List Guid) (k : Nat) (ps : List Profile)
    (h : ∀ p ∈ ps, p.guid.isSome) :
    ∃ qs, reorderAux order k ps = .ok qs ∧ qs.Perm ps := by
  induction order generalizing k ps with
  | nil => exact ⟨ps, rfl, List.Perm.refl ps⟩
  | cons g gs ih =>
    have hdrop : ∀ p ∈ ps.drop k, p.guid.isSome := fun p hp => h p (List.drop_subset k ps hp)
    simp only [reorderAux, findGuidFrom]
    rw [findGuidFromAux_eq_pure g _ k hdrop]
    simp only [exceptBindOk]
    cases hr : findGuidFromPure g (ps.drop k) k with
    | none => exact ih (k + 1) ps h
    | some m =>
      have hperm := swapIdx_perm ps m k
      have h2 : ∀ p ∈ swapIdx ps m k, p.guid.isSome := fun p hp => h p (hperm.mem_iff.mp hp)
      obtain ⟨qs, heq, hq⟩ := ih (k + 1) (swapIdx ps m k) h2
      exact ⟨qs, heq, hq.trans hperm⟩

theorem dedupSpec_ne_nil (l : List Profile) (h : l ≠ []) : (dedupSpec [] l).1 ≠ [] := by
  cases l with
  | nil => exact absurd rfl h
  | cons p rest => simp [dedupSpec]

theorem resolveDefault_profiles (s : CascadiaSettings) :
    (ResolveDefaultProfile s).profiles = s.profiles ∧
    (ResolveDefaultProfile s).warnings = s.warnings ∧
    (ResolveDefaultProfile s).userProfileGuids = s.userProfileGuids ∧
    (ResolveDefaultProfile s).defaultProfileGuids = s.defaultProfileGuids ∧
    (ResolveDefaultProfile s).userHasGlobalsKey = s.userHasGlobalsKey ∧
    (ResolveDefaultProfile s).globals.colorSchemes = s.globals.colorSchemes ∧
    (ResolveDefaultProfile s).globals.keybindingsWarnings = s.globals.keybindingsWarnings ∧
    (ResolveDefaultProfile s).globals.unparsedDefaultProfile = s.globals.unparsedDefaultProfile := by
  unfold ResolveDefaultProfile
  split <;> exact ⟨rfl, rfl, rfl, rfl, rfl, rfl, rfl, rfl⟩

theorem defaultExists_ok (s : CascadiaSettings) (hne : s.profiles ≠ [])
    (h : ∀ p ∈ s.profiles, p.guid.isSome) :
    ∃ t, ValidateDefaultProfileExists s = .ok t ∧ t.profiles = s.profiles ∧
      t.userProfileGuids = s.userProfileGuids ∧
      t.defaultProfileGuids = s.defaultProfileGuids ∧
      t.userHasGlobalsKey = s.userHasGlobalsKey ∧
      t.globals.colorSchemes = s.globals.colorSchemes ∧
      t.globals.keybindingsWarnings = s.globals.keybindingsWarnings ∧
      t.globals.unparsedDefaultProfile = s.globals.unparsedDefaultProfile := by
  simp only [ValidateDefaultProfileExists]
  by_cases hcond : (s.globals.defaultProfile == nullGuid ||
      !(s.profiles.any fun p => p.guid == some s.globals.defaultProfile)) = true
  · rw [if_pos hcond]
    have h0 : 0 < s.profiles.length := List.length_pos.mpr hne
    have hp : s.profiles[0]? = some s.profiles[0] := List.getElem?_eq_getElem h0
    obtain ⟨g, hg⟩ := Option.isSome_iff_exists.mp (h _ (List.getElem_mem h0))
    refine ⟨{ s with warnings := s.warnings ++ [SettingsLoadWarnings.MissingDefaultProfile], globals := { s.globals with defaultProfile := g } }, by simp [listGetE, hp, hg, guidValue], rfl, rfl, rfl, rfl, rfl, rfl, rfl⟩
  · rw [if_neg hcond]
    exact ⟨s, rfl, rfl, rfl, rfl, rfl, rfl, rfl, rfl⟩

theorem keybindings_pass_fields (s : CascadiaSettings) :
    (ValidateKeybindings s).profiles = s.profiles ∧
    (ValidateKeybindings s).globals = s.globals ∧
    (ValidateKeybindings s).userProfileGuids = s.userProfileGuids ∧
    (ValidateKeybindings s).defaultProfileGuids = s.defaultProfileGuids ∧
    (ValidateKeybindings s).userHasGlobalsKey = s.userHasGlobalsKey := by
  unfold ValidateKeybindings
  split <;> exact ⟨rfl, rfl, rfl, rfl, rfl⟩

theorem globalsKey_pass_fields (s : CascadiaSettings) :
    (ValidateNoGlobalsKey s).profiles = s.profiles ∧
    (ValidateNoGlobalsKey s).globals = s.globals ∧
    (ValidateNoGlobalsKey s).userProfileGuids = s.userProfileGuids ∧
    (ValidateNoGlobalsKey s).defaultProfileGuids = s.defaultProfileGuids ∧
    (ValidateNoGlobalsKey s).userHasGlobalsKey = s.userHasGlobalsKey := by
  unfold ValidateNoGlobalsKey
  split <;> exact ⟨rfl, rfl, rfl, rfl, rfl⟩

/-! ## The master case split of the pipeline -/

theorem validate_cases (env : Env) (s : CascadiaSettings) :
    (s.profiles = [] ∧ ValidateSettings env s = .error (.fatal .NoProfiles)) ∨
    (s.profiles ≠ [] ∧ (∀ p ∈ s.profiles, p.hidden = true) ∧
      ValidateSettings env s = .error (.fatal .AllProfilesHidden)) ∨
    (s.profiles ≠ [] ∧ ¬(∀ p ∈ s.profiles, p.hidden = true) ∧
      ∃ t, ValidateSettings env s = .ok t ∧ t.profiles ≠ []) := by
  by_cases hne : s.profiles = []
  · left
    refine ⟨hne, ?_⟩
    simp [ValidateSettings, ValidateProfilesExist, hne]
  · right
    have h1 : ValidateProfilesExist { s with warnings := [] } = .ok () := by
      simp [ValidateProfilesExist, hne]
    have hallsome := assign_profiles_allSome env { s with warnings := [] }
    obtain ⟨qs, hqs, hperm⟩ :=
      reorderAux_ok_perm (collectGuidOrder (ValidateProfilesHaveGuid env { s with warnings := [] })) 0
        (ValidateProfilesHaveGuid env { s with warnings := [] }).profiles hallsome
    have hreorder : ReorderProfilesToMatchUserSettingsOrder
        (ValidateProfilesHaveGuid env { s with warnings := [] }) =
        .ok { ValidateProfilesHaveGuid env { s with warnings := [] } with profiles := qs } := by
      unfold ReorderProfilesToMatchUserSettingsOrder
      rw [hqs]
      rfl
    have hqsallsome : ∀ p ∈ qs, p.guid.isSome := fun p hp => hallsome p (hperm.mem_iff.mp hp)
    have hmapiff := forall_hidden_map env s.profiles
    have hhid : (∀ p ∈ qs, p.hidden = true) ↔ (∀ p ∈ s.profiles, p.hidden = true) := by
      constructor
      · intro h
        exact hmapiff.mp fun p hp => h p (hperm.mem_iff.mpr hp)
      · intro h p hp
        exact hmapiff.mpr h p (hperm.mem_iff.mp hp)
    by_cases hall : ∀ p ∈ s.profiles, p.hidden = true
    · left
      refine ⟨hne, hall, ?_⟩
      have hfilter : qs.filter (fun p => !p.hidden) = [] := by
        rw [List.filter_eq_nil_iff]
        intro p hp
        simp [hhid.mpr hall p hp]
      simp only [ValidateSettings]
      rw [h1]
      simp only [exceptBindOk]
      rw [hreorder]
      simp only [exceptBindOk]
      simp [RemoveHiddenProfiles, hfilter]
    · right
      refine ⟨hne, hall, ?_⟩
      have hfilter_ne : qs.filter (fun p => !p.hidden) ≠ [] := by
        intro hnil
        apply hall
        apply hhid.mp
        intro p hp
        by_contra hph
        have hmem : p ∈ qs.filter fun p => !p.hidden := by
          rw [List.mem_filter]
          exact ⟨hp, by simpa using hph⟩
        rw [hnil] at hmem
        simp at hmem
      have hremove : RemoveHiddenProfiles
          { ValidateProfilesHaveGuid env { s with warnings := [] } with profiles := qs } =
          .ok { ValidateProfilesHaveGuid env { s with warnings := [] } with
                  profiles := qs.filter fun p => !p.hidden } := by
        simp only [RemoveHiddenProfiles]
        rw [if_neg (by simpa [List.isEmpty_iff] using hfilter_ne)]
      have hfiltersome : ∀ p ∈ qs.filter (fun p => !p.hidden), p.guid.isSome :=
        fun p hp => hqsallsome p (List.mem_of_mem_filter hp)
      have hdedup : ValidateNoDuplicateProfiles
          { ValidateProfilesHaveGuid env { s with warnings := [] } with
              profiles := qs.filter fun p => !p.hidden } =
          .ok { ValidateProfilesHaveGuid env { s with warnings := [] } with
                  profiles := (dedupSpec [] (qs.filter fun p => !p.hidden)).1,
                  warnings := [] ++
                    if (dedupSpec [] (qs.filter fun p => !p.hidden)).2 then
                      [.DuplicateProfile] else [] } :=
        (dedup_pass_spec _ hfiltersome).trans (by rfl)
      have hkeptne : (dedupSpec [] (qs.filter fun p => !p.hidden)).1 ≠ [] :=
        dedupSpec_ne_nil _ hfilter_ne
      have hkeptsome : ∀ p ∈ (dedupSpec [] (qs.filter fun p => !p.hidden)).1, p.guid.isSome :=
        fun p hp => hfiltersome p ((dedupSpec_sublist _ []).mem hp)
      obtain ⟨t7, ht7, ht7p, _⟩ := defaultExists_ok (ResolveDefaultProfile
          { ValidateProfilesHaveGuid env { s with warnings := [] } with
              profiles := (dedupSpec [] (qs.filter fun p => !p.hidden)).1,
              warnings := [] ++
                if (dedupSpec [] (qs.filter fun p => !p.hidden)).2 then
                  [.DuplicateProfile] else [] })
        (by rw [(resolveDefault_profiles _).1]; exact hkeptne)
        (by rw [(resolveDefault_profiles _).1]; exact hkeptsome)
      refine ⟨ValidateNoGlobalsKey (ValidateKeybindings (ValidateMediaResources env
        (ValidateAllSchemesExist t7))), ?_, ?_⟩
      · simp only [ValidateSettings]
        rw [h1]
        simp only [exceptBindOk]
        rw [hreorder]
        simp only [exceptBindOk]
        rw [hremove]
        simp only [exceptBindOk]
        rw [hdedup]
        simp only [exceptBindOk]
        rw [ht7]
        simp only [exceptBindOk]
      · rw [(globalsKey_pass_fields _).1, (keybindings_pass_fields _).1, media_pass_spec,
          schemes_pass_spec]
        simp only [List.map_eq_nil_iff]
        rw [ht7p, (resolveDefault_profiles _).1]
        simpa using hkeptne

end Terminal

namespace Terminal

/-! ## Claim theorems, first batch -/

/-- C2: in the duplicate-removal pass, for every profile list (with assigned
identifiers, as the pipeline guarantees at this point), exactly the later
occurrences of each repeated identifier are deleted — dedupSpec is the
in-order scan keeping the first occurrence of each identifier — and
exactly one DuplicateProfile warning is appended iff at least one profile
was removed. -/
theorem duplicateRemovalTheorem (s : CascadiaSettings)
    (h : ∀ p ∈ s.profiles, p.guid.isSome) :
    ValidateNoDuplicateProfiles s =
      .ok { s with profiles := (dedupSpec [] s.profiles).1,
                   warnings := s.warnings ++
                     if (dedupSpec [] s.profiles).2 then [.DuplicateProfile] else [] } ∧
    ((dedupSpec [] s.profiles).2 = true ↔ (dedupSpec [] s.profiles).1 ≠ s.profiles) :=
  ⟨dedup_pass_spec s h, dedupSpec_flag_iff s.profiles⟩

/-- Witness for C2 at a concrete three-profile store with one duplicated
identifier. -/
theorem duplicateRemovalWitness :
    (∀ p ∈ dupState.profiles, p.guid.isSome) ∧
    (ValidateNoDuplicateProfiles dupState =
      .ok { dupState with profiles := (dedupSpec [] dupState.profiles).1,
                          warnings := dupState.warnings ++
                            if (dedupSpec [] dupState.profiles).2 then [.DuplicateProfile] else [] } ∧
    ((dedupSpec [] dupState.profiles).2 = true ↔
      (dedupSpec [] dupState.profiles).1 ≠ dupState.profiles)) :=
  ⟨by decide, duplicateRemovalTheorem dupState (by decide)⟩

/-- C3: in the default-profile existence pass, for every non-empty profile
store whose first profile has an assigned identifier: when the
default-profile identifier is the null identifier or matches no profile,
a MissingDefaultProfile warning is appended and the default is set to the
identifier of the first profile; otherwise the pass changes nothing. -/
theorem defaultProfileFallbackTheorem (s : CascadiaSettings) (p0 : Profile) (g0 : Guid)
    (h0 : s.profiles[0]? = some p0) (hg : p0.guid = some g0) :
    ((s.globals.defaultProfile = nullGuid ∨
        ∀ p ∈ s.profiles, p.guid ≠ some s.globals.defaultProfile) →
      ValidateDefaultProfileExists s =
        .ok { s with warnings := s.warnings ++ [.MissingDefaultProfile],
                     globals := { s.globals with defaultProfile := g0 } }) ∧
    ((s.globals.defaultProfile ≠ nullGuid ∧
        ∃ p ∈ s.profiles, p.guid = some s.globals.defaultProfile) →
      ValidateDefaultProfileExists s = .ok s) := by
  constructor
  · intro hcond
    have hb : (s.globals.defaultProfile == nullGuid ||
        !(s.profiles.any fun p => p.guid == some s.globals.defaultProfile)) = true := by
      rcases hcond with hnull | hnotin
      · simp [hnull]
      · simp only [Bool.or_eq_true, beq_iff_eq, Bool.not_eq_true', List.any_eq_false]
        right
        intro p hp
        simp [hnotin p hp]
    simp only [ValidateDefaultProfileExists]
    rw [if_pos hb]
    simp [listGetE, h0, hg, guidValue]
  · rintro ⟨hnn, p, hp, hpg⟩
    have hb : (s.globals.defaultProfile == nullGuid ||
        !(s.profiles.any fun p => p.guid == some s.globals.defaultProfile)) = false := by
      have hany : (s.profiles.any fun q => q.guid == some s.globals.defaultProfile) = true :=
        List.any_eq_true.mpr ⟨p, hp, by simp [hpg]⟩
      simp [hany, hnn]
    simp only [ValidateDefaultProfileExists]
    rw [if_neg (by simp [hb])]

/-- Witness for C3 at a concrete two-profile store with a dangling default
identifier. -/
theorem defaultProfileFallbackWitness :
    (danglingDefaultState.profiles[0]? = some (mkProfile (some guidA) "alpha") ∧
      (mkProfile (some guidA) "alpha").guid = some guidA) ∧
    (((danglingDefaultState.globals.defaultProfile = nullGuid ∨
        ∀ p ∈ danglingDefaultState.profiles,
          p.guid ≠ some danglingDefaultState.globals.defaultProfile) →
      ValidateDefaultProfileExists danglingDefaultState =
        .ok { danglingDefaultState with
                warnings := danglingDefaultState.warnings ++ [.MissingDefaultProfile],
                globals := { danglingDefaultState.globals with defaultProfile := guidA } }) ∧
    ((danglingDefaultState.globals.defaultProfile ≠ nullGuid ∧
        ∃ p ∈ danglingDefaultState.profiles,
          p.guid = some danglingDefaultState.globals.defaultProfile) →
      ValidateDefaultProfileExists danglingDefaultState = .ok danglingDefaultState)) :=
  ⟨⟨by decide, by decide⟩,
    defaultProfileFallbackTheorem danglingDefaultState (mkProfile (some guidA) "alpha") guidA
      (by decide) (by decide)⟩

/-- C6: the color-scheme pass maps every profile through the single-profile
repair — a profile with a non-empty scheme name missing from the table is
reset to the fallback name Campbell, every other profile is unchanged —
and appends UnknownColorScheme exactly once iff at least one profile was
repaired. -/
theorem schemeValidationTheorem (s : CascadiaSettings) :
    ValidateAllSchemesExist s =
      { s with profiles := s.profiles.map fun p => (fixSchemeName s.globals.colorSchemes p).1,
               warnings := s.warnings ++
                 if s.profiles.any fun p => (fixSchemeName s.globals.colorSchemes p).2 then
                   [.UnknownColorScheme] else [] } ∧
    (∀ p : Profile, schemeInvalid s.globals.colorSchemes p = false →
      (fixSchemeName s.globals.colorSchemes p).1 = p) ∧
    (∀ p : Profile, schemeInvalid s.globals.colorSchemes p = true →
      (fixSchemeName s.globals.colorSchemes p).1 = { p with colorSchemeName := "Campbell" }) ∧
    (∀ p : Profile, (fixSchemeName s.globals.colorSchemes p).2 = schemeInvalid s.globals.colorSchemes p) := by
  refine ⟨schemes_pass_spec s, fun p hp => ?_, fun p hp => ?_, fun p => ?_⟩
  · simp [fixSchemeName, hp]
  · simp [fixSchemeName, hp]
  · simp only [fixSchemeName]
    split <;> simp_all

/-- C8: each of the three session override fields overwrites the built
settings only when the corresponding argument field is non-empty, the
three overrides act independently, and every other field of the settings
is untouched; absent arguments change nothing. -/
theorem sessionOverrideTheorem (t : TerminalSettings) (a : NewTerminalArgs) :
    (applyNewTerminalArgsOverrides (some a) t).commandline =
        (if a.commandline ≠ "" then a.commandline else t.commandline) ∧
    (applyNewTerminalArgsOverrides (some a) t).startingDirectory =
        (if a.startingDirectory ≠ "" then a.startingDirectory else t.startingDirectory) ∧
    (applyNewTerminalArgsOverrides (some a) t).startingTitle =
        (if a.tabTitle ≠ "" then a.tabTitle else t.startingTitle) ∧
    (applyNewTerminalArgsOverrides (some a) t).defaultForeground = t.defaultForeground ∧
    (applyNewTerminalArgsOverrides (some a) t).defaultBackground = t.defaultBackground ∧
    (applyNewTerminalArgsOverrides (some a) t).initialRows = t.initialRows ∧
    (applyNewTerminalArgsOverrides (some a) t).initialCols = t.initialCols ∧
    applyNewTerminalArgsOverrides none t = t := by
  simp only [applyNewTerminalArgsOverrides]
  refine ⟨?_, ?_, ?_, ?_, ?_, ?_, ?_, trivial⟩ <;> (dsimp only) <;> split_ifs <;> rfl

/-- C5 counterexample: a token that is identifier-shaped (38 characters,
leading brace) but fails to parse makes the lookup return nothing, even
though a profile is literally named like the token and the claimed
name-comparison fallback would have found it. -/
theorem lookupFallbackCounterexample :
    GetProfileGuidByName cexLookupState badShapedToken = none ∧
    lookupByNameOrIdentifierClaim cexLookupState badShapedToken = some guidA ∧
    none ≠ some guidA := by
  refine ⟨rfl, rfl, by decide⟩

/-- C5 (amended): the lookup helper treats the token as a literal identifier
only when its length is 38 and its first character is the brace, validates
that it parses, and confirms the parsed identifier matches a profile; a
failing shape check or a failing existence check falls back to the linear
exact-name comparison, but a failing parse makes the lookup return
nothing (the exception short-circuits the name fallback); an empty token
or no match on either path also returns nothing, never an error. -/
theorem lookupFallbackAmendedTheorem (s : CascadiaSettings) (token : String)
    (h : ∀ p ∈ s.profiles, p.guid.isSome) :
    GetProfileGuidByName s token = lookupByNameOrIdentifierSpec s token :=
  getProfileGuidByName_eq_spec s token h

/-- Witness for C5 (amended) at a concrete store and name token. -/
theorem lookupFallbackAmendedWitness :
    (∀ p ∈ threeProfileState.profiles, p.guid.isSome) ∧
    GetProfileGuidByName threeProfileState "beta" =
      lookupByNameOrIdentifierSpec threeProfileState "beta" :=
  ⟨by decide, lookupFallbackAmendedTheorem threeProfileState "beta" (by decide)⟩

/-- C4 counterexample: with an identifier-shaped but unparseable token that
names an existing profile, the resolver ignores the token entirely and
falls through to the global default, while the claimed precedence would
resolve it by exact name. -/
theorem resolverPrecedenceCounterexample :
    GetProfileForArgs cexLookupState (some cexResolveArgs) = .ok guidB ∧
    resolveForArgsClaim cexLookupState (some cexResolveArgs) = guidA ∧
    guidB ≠ guidA := by
  refine ⟨rfl, rfl, by decide⟩

/-- C4 (amended): the resolver follows the precedence token-by-identifier
(shape, parse and existence all succeeding), else — except after a parse
failure, which skips the name fallback — token-by-exact-name, else
index-based lookup where a negative or out-of-range index is ignored
without error, else the global default-profile identifier; in particular
an index of 5 with only three profiles falls through to the default
identifier without error. -/
theorem resolverPrecedenceAmendedTheorem (s : CascadiaSettings) (args : Option NewTerminalArgs)
    (h : ∀ p ∈ s.profiles, p.guid.isSome) :
    GetProfileForArgs s args = .ok (resolveForArgsSpec s args) ∧
    GetProfileForArgs threeProfileState (some indexFiveArgs) =
      .ok threeProfileState.globals.defaultProfile :=
  ⟨getProfileForArgs_eq_spec s args h, rfl⟩

/-- Witness for C4 (amended) at the three-profile store with index 5. -/
theorem resolverPrecedenceAmendedWitness :
    (∀ p ∈ threeProfileState.profiles, p.guid.isSome) ∧
    (GetProfileForArgs threeProfileState (some indexFiveArgs) =
        .ok (resolveForArgsSpec threeProfileState (some indexFiveArgs)) ∧
      GetProfileForArgs threeProfileState (some indexFiveArgs) =
        .ok threeProfileState.globals.defaultProfile) :=
  ⟨by decide, resolverPrecedenceAmendedTheorem threeProfileState (some indexFiveArgs) (by decide)⟩

/-- C1: validation is fatal only in two places — it terminates with the
NoProfiles error iff the store is empty at entry, with the
AllProfilesHidden error iff the store is non-empty and every profile is
hidden (the store becomes empty after dropping hidden profiles), and no
other pass ever aborts: every other outcome is a successful state. -/
theorem validationFatalErrorsTheorem (env : Env) (s : CascadiaSettings) :
    (ValidateSettings env s = .error (.fatal .NoProfiles) ↔ s.profiles = []) ∧
    (ValidateSettings env s = .error (.fatal .AllProfilesHidden) ↔
      (s.profiles ≠ [] ∧ ∀ p ∈ s.profiles, p.hidden = true)) ∧
    (∀ e, ValidateSettings env s = .error e →
      e = .fatal .NoProfiles ∨ e = .fatal .AllProfilesHidden) := by
  rcases validate_cases env s with ⟨hnil, herr⟩ | ⟨hne, hall, herr⟩ | ⟨hne, hnall, t, hok, _⟩
  · refine ⟨⟨fun _ => hnil, fun _ => herr⟩,
      ⟨fun h => absurd (herr.symm.trans h) (by simp), fun hc => absurd hnil hc.1⟩,
      fun e he => ?_⟩
    have h2 : ModelError.fatal .NoProfiles = e := by
      have h3 := herr.symm.trans he
      injection h3
    exact Or.inl h2.symm
  · refine ⟨⟨fun h => absurd (herr.symm.trans h) (by simp), fun hp => absurd hp hne⟩,
      ⟨fun _ => ⟨hne, hall⟩, fun _ => herr⟩, fun e he => ?_⟩
    have h2 : ModelError.fatal .AllProfilesHidden = e := by
      have h3 := herr.symm.trans he
      injection h3
    exact Or.inr h2.symm
  · refine ⟨⟨fun h => absurd (hok.symm.trans h) (by simp), fun hp => absurd hp hne⟩,
      ⟨fun h => absurd (hok.symm.trans h) (by simp), fun hc => absurd hc.2 hnall⟩,
      fun e he => absurd (hok.symm.trans he) (by simp)⟩

/-- C10: the index-0 accesses are safe in every non-aborting run — validation
never fails with the out-of-bounds or null-reference markers (its only
errors are the two fatal codes), the store a successful validation
returns is non-empty so GetProfiles on it succeeds, while GetProfiles on
an empty store performs the out-of-bounds element-0 access. -/
theorem indexZeroSafetyTheorem (env : Env) (s : CascadiaSettings) :
    (∀ e, ValidateSettings env s = .error e → e ≠ .oob ∧ e ≠ .nullRef) ∧
    (∀ t, ValidateSettings env s = .ok t → t.profiles ≠ [] ∧ GetProfiles t = .ok t.profiles) ∧
    (∀ s2 : CascadiaSettings, s2.profiles = [] → GetProfiles s2 = .error .oob) := by
  refine ⟨fun e he => ?_, fun t ht => ?_, fun s2 h2 => ?_⟩
  · rcases validate_cases env s with ⟨_, herr⟩ | ⟨_, _, herr⟩ | ⟨_, _, t, hok, _⟩
    · obtain rfl : ModelError.fatal .NoProfiles = e := by
        have h3 := herr.symm.trans he
        injection h3
      exact ⟨by simp, by simp⟩
    · obtain rfl : ModelError.fatal .AllProfilesHidden = e := by
        have h3 := herr.symm.trans he
        injection h3
      exact ⟨by simp, by simp⟩
    · exact absurd (hok.symm.trans he) (by simp)
  · rcases validate_cases env s with ⟨_, herr⟩ | ⟨_, _, herr⟩ | ⟨_, _, t2, hok, htne⟩
    · exact absurd (herr.symm.trans ht) (by simp)
    · exact absurd (herr.symm.trans ht) (by simp)
    · obtain rfl : t2 = t := by
        have h3 := hok.symm.trans ht
        injection h3
      have h0 : 0 < t2.profiles.length := List.length_pos.mpr htne
      refine ⟨htne, ?_⟩
      unfold GetProfiles
      simp [listGetE, List.getElem?_eq_getElem h0]
  · unfold GetProfiles
    simp [listGetE, h2]

/-- C7: the reorder pass collects the identifier sequence first from the user
configuration then from the default configuration skipping repeats
(keepFirstGuids over the concatenation), and on the scenario store built
from user profiles [A, B] plus default profiles [A, C] the store after
reordering followed by duplicate removal is exactly [A, B, C]. -/
theorem reorderScenarioTheorem :
    (∀ s : CascadiaSettings, collectGuidOrder s =
        keepFirstGuids [] (s.userProfileGuids ++ s.defaultProfileGuids)) ∧
    collectGuidOrder scenarioState = [guidA, guidB, guidC] ∧
    (((ReorderProfilesToMatchUserSettingsOrder scenarioState).bind
        ValidateNoDuplicateProfiles).map fun s => s.profiles) =
      .ok [scenarioProfileA, scenarioProfileB, scenarioProfileC] :=
  ⟨collectGuidOrder_spec, rfl, rfl⟩

/-! ## The reorder invariant: establishment and fixed point -/

theorem nodup_getElem?_unique {α : Type} (l : List α) (h : l.Nodup) (i j : Nat) (x : α)
    (hi : l[i]? = some x) (hj : l[j]? = some x) : i = j := by
  obtain ⟨hilen, hi2⟩ := List.getElem?_eq_some_iff.mp hi
  obtain ⟨hjlen, hj2⟩ := List.getElem?_eq_some_iff.mp hj
  exact (List.Nodup.getElem_inj_iff h).mp (hi2.trans hj2.symm)

theorem nodup_keys_unique (ps : List Profile) (hnd : (guidKeys ps).Nodup)
    (i1 i2 : Nat) (p1 p2 : Profile) (g : Guid)
    (h1 : ps[i1]? = some p1) (h2 : ps[i2]? = some p2)
    (hg1 : p1.guid = some g) (hg2 : p2.guid = some g) : i1 = i2 := by
  refine nodup_getElem?_unique (guidKeys ps) hnd i1 i2 g ?_ ?_
  · unfold guidKeys
    rw [List.getElem?_map, h1]
    simp [hg1]
  · unfold guidKeys
    rw [List.getElem?_map, h2]
    simp [hg2]

theorem reorderAux_establishes (rest : List Guid) (pre : List Guid)
    (ps qs : List Profile)
    (hsome : ∀ p ∈ ps, p.guid.isSome)
    (hnd : (guidKeys ps).Nodup)
    (hond : (pre ++ rest).Nodup)
    (hinv : ReorderInv (pre ++ rest) pre.length ps)
    (heq : reorderAux rest pre.length ps = .ok qs) :
    ReorderInv (pre ++ rest) (pre ++ rest).length qs := by
  induction rest generalizing pre ps with
  | nil =>
    obtain rfl : ps = qs := by
      simpa [reorderAux] using heq
    intro j h i p hj hoj hpi hpg
    refine hinv j h i p ?_ hoj hpi hpg
    simpa using hj
  | cons g gs ih =>
    have horder : (pre ++ g :: gs)[pre.length]? = some g := by
      rw [List.getElem?_append_right (Nat.le_refl _)]
      simp
    simp only [reorderAux, findGuidFrom] at heq
    rw [findGuidFromAux_eq_pure g _ pre.length
      (fun p hp => hsome p (List.drop_subset _ _ hp))] at heq
    simp only [exceptBindOk] at heq
    cases hr : findGuidFromPure g (ps.drop pre.length) pre.length with
    | none =>
      rw [hr] at heq
      have hnone := (findGuidFromPure_none g (ps.drop pre.length) pre.length).mp hr
      have hinv2 : ReorderInv (pre ++ g :: gs) (pre.length + 1) ps := by
        intro j h i p hj hoj hpi hpg
        rcases Nat.lt_or_ge j pre.length with hjlt | hjge
        · exact hinv j h i p hjlt hoj hpi hpg
        · have hj2 : j = pre.length := by omega
          subst hj2
          have hg : h = g := by
            rw [horder] at hoj
            exact (Option.some.inj hoj).symm
          subst hg
          by_contra hgt
          have hge : pre.length ≤ i := by omega
          have hd : (ps.drop pre.length)[i - pre.length]? = some p := by
            rw [List.getElem?_drop]
            rw [show pre.length + (i - pre.length) = i by omega]
            exact hpi
          exact hnone (i - pre.length) p hd hpg
      have hres := ih (pre ++ [g]) ps hsome hnd
        (by simpa using hond)
        (by simpa using hinv2)
        (by simpa using heq)
      intro j h i p hj hoj hpi hpg
      refine hres j h i p ?_ ?_ hpi hpg
      · simpa using hj
      · simpa using hoj
    | some m =>
      rw [hr] at heq
      obtain ⟨k0, p0, hm, hget0, hguid0⟩ := findGuidFromPure_some _ _ _ _ hr
      have hget : ps[m]? = some p0 := by
        rw [hm, ← List.getElem?_drop]
        exact hget0
      have hmlen : m < ps.length := (List.getElem?_eq_some_iff.mp hget).1
      have hklelen : pre.length ≤ m := by omega
      have hpk : ps[pre.length]? = some ps[pre.length] :=
        List.getElem?_eq_getElem (by omega)
      have hperm := swapIdx_perm ps m pre.length
      have hsome2 : ∀ p ∈ swapIdx ps m pre.length, p.guid.isSome :=
        fun p hp => hsome p (hperm.mem_iff.mp hp)
      have hnd2 : (guidKeys (swapIdx ps m pre.length)).Nodup := by
        have hkp := hperm.map fun p => p.guid.getD nullGuid
        exact hkp.nodup_iff.mpr hnd
      have hinv2 : ReorderInv (pre ++ g :: gs) (pre.length + 1) (swapIdx ps m pre.length) := by
        intro j h i p hj hoj hpi hpg
        rw [getElem?_swapIdx ps m pre.length i p0 ps[pre.length] hget hpk] at hpi
        by_cases hij : i = pre.length
        · rw [if_pos hij] at hpi
          obtain rfl : p0 = p := Option.some.inj hpi
          rcases Nat.lt_or_ge j pre.length with hjlt | hjge
          · -- p0 carries g = order value at pre.length; uniqueness in the order forbids j < pre.length
            have hg : h = g := (Option.some.inj (hguid0.symm.trans hpg)).symm
            rw [hg] at hoj
            have : j = pre.length := nodup_getElem?_unique _ hond j pre.length g hoj horder
            omega
          · omega
        · rw [if_neg hij] at hpi
          by_cases him : i = m
          · rw [if_pos him] at hpi
            have hpe : ps[pre.length] = p := Option.some.inj hpi
            rw [hpe] at hpk
            rcases Nat.lt_or_ge j pre.length with hjlt | hjge
            · have := hinv j h pre.length p hjlt hoj hpk hpg
              omega
            · have hj2 : j = pre.length := by omega
              subst hj2
              have hg : h = g := by
                rw [horder] at hoj
                exact (Option.some.inj hoj).symm
              rw [hg] at hpg
              have : pre.length = m := nodup_keys_unique ps hnd pre.length m p p0 g hpk hget hpg hguid0
              omega
          · rw [if_neg him] at hpi
            rcases Nat.lt_or_ge j pre.length with hjlt | hjge
            · exact hinv j h i p hjlt hoj hpi hpg
            · have hj2 : j = pre.length := by omega
              subst hj2
              have hg : h = g := by
                rw [horder] at hoj
                exact (Option.some.inj hoj).symm
              rw [hg] at hpg
              have : i = m := nodup_keys_unique ps hnd i m p p0 g hpi hget hpg hguid0
              omega
      have hres := ih (pre ++ [g]) (swapIdx ps m pre.length) hsome2 hnd2
        (by simpa using hond)
        (by simpa using hinv2)
        (by simpa using heq)
      intro j h i p hj hoj hpi hpg
      refine hres j h i p ?_ ?_ hpi hpg
      · simpa using hj
      · simpa using hoj

theorem reorderAux_fixed (rest : List Guid) (pre : List Guid) (ps : List Profile)
    (hsome : ∀ p ∈ ps, p.guid.isSome)
    (hinv : ReorderInv (pre ++ rest) (pre ++ rest).length ps) :
    reorderAux rest pre.length ps = .ok ps := by
  induction rest generalizing pre with
  | nil => rfl
  | cons g gs ih =>
    have horder : (pre ++ g :: gs)[pre.length]? = some g := by
      rw [List.getElem?_append_right (Nat.le_refl _)]
      simp
    simp only [reorderAux, findGuidFrom]
    rw [findGuidFromAux_eq_pure g _ pre.length
      (fun p hp => hsome p (List.drop_subset _ _ hp))]
    simp only [exceptBindOk]
    have htail : reorderAux gs (pre.length + 1) ps = .ok ps := by
      have := ih (pre ++ [g])
        (by
          intro j h i p hj hoj hpi hpg
          refine hinv j h i p ?_ ?_ hpi hpg
          · simpa using hj
          · simpa using hoj)
      simpa using this
    cases hr : findGuidFromPure g (ps.drop pre.length) pre.length with
    | none => exact htail
    | some m =>
      obtain ⟨k0, p0, hm, hget0, hguid0⟩ := findGuidFromPure_some _ _ _ _ hr
      have hget : ps[pre.length + k0]? = some p0 := by
        rw [← List.getElem?_drop]
        exact hget0
      have hle : pre.length + k0 ≤ pre.length := by
        refine hinv pre.length g (pre.length + k0) p0 ?_ horder hget hguid0
        simp
      have hk0 : k0 = 0 := by omega
      subst hk0
      obtain rfl : m = pre.length := by omega
      dsimp only
      rw [swapIdx_self]
      exact htail

theorem reorderInv_filter (order : List Guid) (ps : List Profile) (f : Profile → Bool)
    (h : ReorderInv order order.length ps) :
    ReorderInv order order.length (ps.filter f) := by
  intro j g i p hj hoj hpi hpg
  obtain ⟨i0, hle, hget⟩ := filter_getElem?_origin ps f i p hpi
  exact le_trans hle (h j g i0 p hj hoj hget hpg)

theorem reorderInv_map (order : List Guid) (ps : List Profile) (f : Profile → Profile)
    (hf : ∀ p, (f p).guid = p.guid)
    (h : ReorderInv order order.length ps) :
    ReorderInv order order.length (ps.map f) := by
  intro j g i p hj hoj hpi hpg
  rw [List.getElem?_map] at hpi
  obtain ⟨q, hq, rfl⟩ := Option.map_eq_some'.mp hpi
  refine h j g i q hj hoj hq ?_
  rw [← hf q]
  exact hpg

/-! ## Per-pass no-op and stability facts for the idempotence analysis -/

theorem fixSchemeName_guid (schemes : List ColorScheme) (p : Profile) :
    (fixSchemeName schemes p).1.guid = p.guid := by
  unfold fixSchemeName
  split <;> rfl

theorem fixSchemeName_hidden (schemes : List ColorScheme) (p : Profile) :
    (fixSchemeName schemes p).1.hidden = p.hidden := by
  unfold fixSchemeName
  split <;> rfl

theorem fixSchemeName_stable (schemes : List ColorScheme) (p : Profile)
    (hC : (schemes.find? fun sc => sc.name == "Campbell").isSome) :
    schemeInvalid schemes (fixSchemeName schemes p).1 = false := by
  unfold fixSchemeName
  by_cases h : schemeInvalid schemes p
  · rw [if_pos h]
    unfold schemeInvalid
    simp only []
    rw [Option.isSome_iff_exists] at hC
    obtain ⟨sc, hsc⟩ := hC
    simp [hsc]
  · rw [if_neg h]
    simpa using h

theorem fixMediaPaths_guid (env : Env) (p : Profile) :
    (fixMediaPaths env p).guid = p.guid := by
  simp only [fixMediaPaths]
  split <;> split <;> rfl

theorem fixMediaPaths_hidden (env : Env) (p : Profile) :
    (fixMediaPaths env p).hidden = p.hidden := by
  simp only [fixMediaPaths]
  split <;> split <;> rfl

theorem fixMediaPaths_scheme (env : Env) (p : Profile) :
    (fixMediaPaths env p).colorSchemeName = p.colorSchemeName := by
  simp only [fixMediaPaths]
  split <;> split <;> rfl

theorem schemeInvalid_fixMedia (env : Env) (schemes : List ColorScheme) (p : Profile) :
    schemeInvalid schemes (fixMediaPaths env p) = schemeInvalid schemes p := by
  unfold schemeInvalid
  rw [fixMediaPaths_scheme]

theorem fixMediaPaths_stable (env : Env) (p : Profile) :
    backgroundInvalid env (fixMediaPaths env p) = false ∧
      iconInvalid env (fixMediaPaths env p) = false := by
  unfold fixMediaPaths
  by_cases hbg : backgroundInvalid env p
  · rw [if_pos hbg]
    by_cases hic : iconInvalid env { p with backgroundImagePath := "" }
    · rw [if_pos hic]
      exact ⟨by simp [backgroundInvalid], by simp [iconInvalid]⟩
    · rw [if_neg hic]
      refine ⟨by simp [backgroundInvalid], ?_⟩
      simpa using hic
  · rw [if_neg hbg]
    by_cases hic : iconInvalid env p
    · rw [if_pos hic]
      refine ⟨?_, by simp [iconInvalid]⟩
      simpa [backgroundInvalid] using hbg
    · rw [if_neg hic]
      exact ⟨by simpa using hbg, by simpa using hic⟩

theorem guidKeys_map (l : List Profile) (f : Profile → Profile)
    (hf : ∀ p, (f p).guid = p.guid) : guidKeys (l.map f) = guidKeys l := by
  unfold guidKeys
  rw [List.map_map]
  exact List.map_congr_left fun p _ => by simp [hf p]

theorem exists_guid_map (l : List Profile) (f : Profile → Profile) (d : Guid)
    (hf : ∀ p, (f p).guid = p.guid)
    (h : ∃ p ∈ l, p.guid = some d) : ∃ p ∈ l.map f, p.guid = some d := by
  obtain ⟨p, hp, hpg⟩ := h
  exact ⟨f p, List.mem_map_of_mem f hp, by rw [hf p]; exact hpg⟩

theorem resolveDefault_of_none (s : CascadiaSettings)
    (h : s.globals.unparsedDefaultProfile = none) : ResolveDefaultProfile s = s := by
  unfold ResolveDefaultProfile
  split
  · rfl
  · next unp heq => simp [h] at heq

theorem defaultExists_skip (s : CascadiaSettings)
    (hd : s.globals.defaultProfile ≠ nullGuid)
    (hin : ∃ p ∈ s.profiles, p.guid = some s.globals.defaultProfile) :
    ValidateDefaultProfileExists s = .ok s := by
  obtain ⟨p, hp, hpg⟩ := hin
  have hany : (s.profiles.any fun q => q.guid == some s.globals.defaultProfile) = true :=
    List.any_eq_true.mpr ⟨p, hp, by simp [hpg]⟩
  simp only [ValidateDefaultProfileExists]
  rw [if_neg (by simp [hany, hd])]

theorem defaultExists_run (s : CascadiaSettings) (hne : s.profiles ≠ [])
    (hsome : ∀ p ∈ s.profiles, p.guid.isSome)
    (hnn : ∀ p ∈ s.profiles, p.guid ≠ some nullGuid) :
    ∃ t, ValidateDefaultProfileExists s = .ok t ∧
      t.profiles = s.profiles ∧
      t.globals.colorSchemes = s.globals.colorSchemes ∧
      t.globals.keybindingsWarnings = s.globals.keybindingsWarnings ∧
      t.globals.unparsedDefaultProfile = s.globals.unparsedDefaultProfile ∧
      t.userProfileGuids = s.userProfileGuids ∧
      t.defaultProfileGuids = s.defaultProfileGuids ∧
      t.userHasGlobalsKey = s.userHasGlobalsKey ∧
      t.globals.defaultProfile ≠ nullGuid ∧
      (∃ p ∈ s.profiles, p.guid = some t.globals.defaultProfile) := by
  simp only [ValidateDefaultProfileExists]
  by_cases hcond : (s.globals.defaultProfile == nullGuid ||
      !(s.profiles.any fun p => p.guid == some s.globals.defaultProfile)) = true
  · rw [if_pos hcond]
    have h0 : 0 < s.profiles.length := List.length_pos.mpr hne
    have hp : s.profiles[0]? = some s.profiles[0] := List.getElem?_eq_getElem h0
    have hmem : s.profiles[0] ∈ s.profiles := List.getElem_mem h0
    obtain ⟨g, hg⟩ := Option.isSome_iff_exists.mp (hsome _ hmem)
    refine ⟨{ s with warnings := s.warnings ++ [SettingsLoadWarnings.MissingDefaultProfile], globals := { s.globals with defaultProfile := g } }, by simp [listGetE, hp, hg, guidValue], rfl, rfl, rfl, rfl, rfl, rfl, rfl, ?_, ⟨s.profiles[0], hmem, hg⟩⟩
    intro hnull
    have hgn : g = nullGuid := hnull
    exact hnn _ hmem (by rw [hg, hgn])
  · rw [if_neg hcond]
    have hcond2 : s.globals.defaultProfile ≠ nullGuid ∧
        ∃ p ∈ s.profiles, p.guid = some s.globals.defaultProfile := by
      constructor
      · intro hd
        exact hcond (by simp [hd])
      · by_contra hno
        push_neg at hno
        apply hcond
        have hanyf : (s.profiles.any fun p => p.guid == some s.globals.defaultProfile) = false := by
          rw [List.any_eq_false]
          intro p hp
          simp [hno p hp]
        simp [hanyf]
    exact ⟨s, rfl, rfl, rfl, rfl, rfl, rfl, rfl, rfl, hcond2.1, hcond2.2⟩

theorem removeHidden_noop (s : CascadiaSettings) (hne : s.profiles ≠ [])
    (h : ∀ p ∈ s.profiles, p.hidden = false) :
    RemoveHiddenProfiles s = .ok s := by
  have hfe : s.profiles.filter (fun p => !p.hidden) = s.profiles :=
    List.filter_eq_self.mpr fun p hp => by simp [h p hp]
  simp only [RemoveHiddenProfiles, hfe]
  rw [if_neg (by simpa [List.isEmpty_iff] using hne)]

theorem dedup_noop (s : CascadiaSettings)
    (hsome : ∀ p ∈ s.profiles, p.guid.isSome)
    (hnd : (guidKeys s.profiles).Nodup) :
    ValidateNoDuplicateProfiles s = .ok s := by
  refine (dedup_pass_spec s hsome).trans ?_
  rw [dedupSpec_eq_self s.profiles [] hnd (by simp)]
  simp

theorem schemes_noop (s : CascadiaSettings)
    (h : ∀ p ∈ s.profiles, schemeInvalid s.globals.colorSchemes p = false) :
    ValidateAllSchemesExist s = s := by
  rw [schemes_pass_spec]
  have hmap : (s.profiles.map fun p => (fixSchemeName s.globals.colorSchemes p).1) = s.profiles :=
    map_eq_self_of_id _ _ fun p hp => by simp [fixSchemeName, h p hp]
  have hany : (s.profiles.any fun p => (fixSchemeName s.globals.colorSchemes p).2) = false := by
    rw [List.any_eq_false]
    intro p hp
    simp [fixSchemeName, h p hp]
  rw [hmap, hany]
  simp

theorem media_noop (env : Env) (s : CascadiaSettings)
    (h : ∀ p ∈ s.profiles, backgroundInvalid env p = false ∧ iconInvalid env p = false) :
    ValidateMediaResources env s = s := by
  rw [media_pass_spec]
  have hmap : s.profiles.map (fixMediaPaths env) = s.profiles :=
    map_eq_self_of_id _ _ fun p hp => by
      simp [fixMediaPaths, (h p hp).1, (h p hp).2]
  have hbg : s.profiles.any (backgroundInvalid env) = false := by
    rw [List.any_eq_false]
    intro p hp
    simp [(h p hp).1]
  have hic : s.profiles.any (iconInvalid env) = false := by
    rw [List.any_eq_false]
    intro p hp
    simp [(h p hp).2]
  rw [hmap, hbg, hic]
  simp

theorem keybindings_noop (s : CascadiaSettings) (h : s.globals.keybindingsWarnings = []) :
    ValidateKeybindings s = s := by
  unfold ValidateKeybindings
  rw [if_pos (by simp [h])]

theorem globalsKey_noop (s : CascadiaSettings) (h : s.userHasGlobalsKey = false) :
    ValidateNoGlobalsKey s = s := by
  unfold ValidateNoGlobalsKey
  rw [if_neg (by simp [h])]

theorem schemes_profiles (s : CascadiaSettings) :
    (ValidateAllSchemesExist s).profiles =
      s.profiles.map fun p => (fixSchemeName s.globals.colorSchemes p).1 := by
  rw [schemes_pass_spec]

theorem schemes_fields (s : CascadiaSettings) :
    (ValidateAllSchemesExist s).globals = s.globals ∧
    (ValidateAllSchemesExist s).userProfileGuids = s.userProfileGuids ∧
    (ValidateAllSchemesExist s).defaultProfileGuids = s.defaultProfileGuids ∧
    (ValidateAllSchemesExist s).userHasGlobalsKey = s.userHasGlobalsKey := by
  rw [schemes_pass_spec]
  exact ⟨rfl, rfl, rfl, rfl⟩

theorem media_profiles (env : Env) (s : CascadiaSettings) :
    (ValidateMediaResources env s).profiles = s.profiles.map (fixMediaPaths env) := by
  rw [media_pass_spec]

theorem media_fields (env : Env) (s : CascadiaSettings) :
    (ValidateMediaResources env s).globals = s.globals ∧
    (ValidateMediaResources env s).userProfileGuids = s.userProfileGuids ∧
    (ValidateMediaResources env s).defaultProfileGuids = s.defaultProfileGuids ∧
    (ValidateMediaResources env s).userHasGlobalsKey = s.userHasGlobalsKey := by
  rw [media_pass_spec]
  exact ⟨rfl, rfl, rfl, rfl⟩

/-! ## Claim C9 -/

/-- C9 counterexample: on a store that validates successfully but whose
globals carry a keybinding warning, the second validation run re-emits the
keybinding warnings, so its warning list is not empty as the claim states;
and on a store where a hidden profile and a surviving profile share an
identifier, the second run even changes the profile order ([b, a2]
becomes [a2, b]) while producing no warning at all. -/
theorem idempotenceCounterexample :
    (((ValidateSettings env0 kbWarningState).bind fun t => ValidateSettings env0 t).map
        (fun t => t.warnings) =
      .ok [.AtLeastOneKeybindingWarning, .TooManyKeysForChord] ∧
    ([.AtLeastOneKeybindingWarning, .TooManyKeysForChord] : List SettingsLoadWarnings) ≠ []) ∧
    ((ValidateSettings env0 hiddenDupState).map (fun t => t.profiles.map fun p => p.name) =
        .ok ["b", "a2"] ∧
      ((ValidateSettings env0 hiddenDupState).bind fun t => ValidateSettings env0 t).map
          (fun t => (t.profiles.map fun p => p.name, t.warnings)) =
        .ok (["a2", "b"], []) ∧
      (["b", "a2"] : List String) ≠ ["a2", "b"]) :=
  ⟨⟨rfl, by decide⟩, rfl, rfl, by decide⟩

/-- C9 (amended): validation is idempotent on its own output provided the
assigned identifiers are pairwise distinct and non-null, there are no
keybinding warnings, no legacy globals key, no unparsed default-profile
token, and the fallback scheme Campbell is present in the table: a second
run then succeeds, produces an empty warning list, and leaves the profile
set, the profile order and every repaired field unchanged.  (Without the
distinctness condition even the profile order can change on the second
run; without the others the second run can re-emit warnings.) -/
theorem idempotenceAmendedTheorem (env : Env) (s t : CascadiaSettings)
    (hok : ValidateSettings env s = .ok t)
    (hnd : (guidKeys (s.profiles.map (generateGuidIfNecessary env))).Nodup)
    (hnn : ∀ p ∈ s.profiles.map (generateGuidIfNecessary env), p.guid ≠ some nullGuid)
    (hkb : s.globals.keybindingsWarnings = [])
    (hgk : s.userHasGlobalsKey = false)
    (hun : s.globals.unparsedDefaultProfile = none)
    (hC : (s.globals.colorSchemes.find? fun sc => sc.name == "Campbell").isSome) :
    ValidateSettings env t = .ok { t with warnings := [] } := by
  -- Phase A: replay the first run to learn the structure of t.
  rcases validate_cases env s with ⟨_, herr⟩ | ⟨_, _, herr⟩ | ⟨hne, hnall, t2, hok2, _⟩
  · exact absurd (herr.symm.trans hok) (by simp)
  · exact absurd (herr.symm.trans hok) (by simp)
  have h1 : ValidateProfilesExist { s with warnings := [] } = .ok () := by
    simp [ValidateProfilesExist, hne]
  have hallsome := assign_profiles_allSome env { s with warnings := [] }
  obtain ⟨qs, hqs, hperm⟩ :=
    reorderAux_ok_perm
      (collectGuidOrder (ValidateProfilesHaveGuid env { s with warnings := [] })) 0
      (ValidateProfilesHaveGuid env { s with warnings := [] }).profiles hallsome
  have hreorder : ReorderProfilesToMatchUserSettingsOrder
      (ValidateProfilesHaveGuid env { s with warnings := [] }) =
      .ok { ValidateProfilesHaveGuid env { s with warnings := [] } with profiles := qs } := by
    unfold ReorderProfilesToMatchUserSettingsOrder
    rw [hqs]
    rfl
  have hqsallsome : ∀ p ∈ qs, p.guid.isSome := fun p hp => hallsome p (hperm.mem_iff.mp hp)
  have hndm : (guidKeys
      (ValidateProfilesHaveGuid env { s with warnings := [] }).profiles).Nodup := hnd
  have hndqs : (guidKeys qs).Nodup := by
    have hkp := hperm.map fun p => p.guid.getD nullGuid
    exact hkp.nodup_iff.mpr hndm
  have hond : (collectGuidOrder
      (ValidateProfilesHaveGuid env { s with warnings := [] })).Nodup := by
    rw [collectGuidOrder_spec]
    exact (keepFirstGuids_nodup _ []).1
  have hinvqs : ReorderInv
      (collectGuidOrder (ValidateProfilesHaveGuid env { s with warnings := [] }))
      (collectGuidOrder (ValidateProfilesHaveGuid env { s with warnings := [] })).length qs := by
    have hres := reorderAux_establishes
      (collectGuidOrder (ValidateProfilesHaveGuid env { s with warnings := [] })) []
      (ValidateProfilesHaveGuid env { s with warnings := [] }).profiles qs hallsome hndm
      (by simpa using hond)
      (fun j g i p hj _ _ _ => absurd hj (by simp))
      hqs
    simpa using hres
  have hmapiff := forall_hidden_map env s.profiles
  have hhid : (∀ p ∈ qs, p.hidden = true) ↔ (∀ p ∈ s.profiles, p.hidden = true) := by
    constructor
    · intro h
      exact hmapiff.mp fun p hp => h p (hperm.mem_iff.mpr hp)
    · intro h p hp
      exact hmapiff.mpr h p (hperm.mem_iff.mp hp)
  have hfilter_ne : qs.filter (fun p => !p.hidden) ≠ [] := by
    intro hnil
    apply hnall
    apply hhid.mp
    intro p hp
    by_contra hph
    have hmem : p ∈ qs.filter fun p => !p.hidden := by
      rw [List.mem_filter]
      exact ⟨hp, by simpa using hph⟩
    rw [hnil] at hmem
    simp at hmem
  have hremove : RemoveHiddenProfiles
      { ValidateProfilesHaveGuid env { s with warnings := [] } with profiles := qs } =
      .ok { ValidateProfilesHaveGuid env { s with warnings := [] } with
              profiles := qs.filter fun p => !p.hidden } := by
    simp only [RemoveHiddenProfiles]
    rw [if_neg (by simpa [List.isEmpty_iff] using hfilter_ne)]
  have hfiltersome : ∀ p ∈ qs.filter (fun p => !p.hidden), p.guid.isSome :=
    fun p hp => hqsallsome p (List.mem_of_mem_filter hp)
  have hndf : (guidKeys (qs.filter fun p => !p.hidden)).Nodup := by
    have hsub : (qs.filter fun p => !p.hidden).Sublist qs := List.filter_sublist _
    have hsub2 := hsub.map fun p => p.guid.getD nullGuid
    exact hsub2.nodup hndqs
  have hdd : dedupSpec [] (qs.filter fun p => !p.hidden) =
      (qs.filter fun p => !p.hidden, false) :=
    dedupSpec_eq_self (qs.filter fun p => !p.hidden) [] hndf (by simp)
  have hdedup : ValidateNoDuplicateProfiles
      { ValidateProfilesHaveGuid env { s with warnings := [] } with
          profiles := qs.filter fun p => !p.hidden } =
      .ok { ValidateProfilesHaveGuid env { s with warnings := [] } with
              profiles := qs.filter fun p => !p.hidden } := by
    refine (dedup_pass_spec _ hfiltersome).trans ?_
    dsimp only
    rw [hdd]
    rfl
  have hresolve : ResolveDefaultProfile
      { ValidateProfilesHaveGuid env { s with warnings := [] } with
          profiles := qs.filter fun p => !p.hidden } =
      { ValidateProfilesHaveGuid env { s with warnings := [] } with
          profiles := qs.filter fun p => !p.hidden } :=
    resolveDefault_of_none _ hun
  obtain ⟨t7, ht7, ht7p, ht7cs, ht7kb, ht7un, ht7u, ht7d, ht7g, ht7dnn, ht7din⟩ :=
    defaultExists_run
      { ValidateProfilesHaveGuid env { s with warnings := [] } with
          profiles := qs.filter fun p => !p.hidden }
      hfilter_ne hfiltersome
      (fun p hp => hnn p (hperm.mem_iff.mp (List.mem_of_mem_filter hp)))
  have hchain : ValidateSettings env s = .ok (ValidateNoGlobalsKey (ValidateKeybindings
      (ValidateMediaResources env (ValidateAllSchemesExist t7)))) := by
    simp only [ValidateSettings]
    rw [h1]
    simp only [exceptBindOk]
    rw [hreorder]
    simp only [exceptBindOk]
    rw [hremove]
    simp only [exceptBindOk]
    rw [hdedup]
    simp only [exceptBindOk]
    rw [hresolve, ht7]
    simp only [exceptBindOk]
  have ht : t = ValidateNoGlobalsKey (ValidateKeybindings
      (ValidateMediaResources env (ValidateAllSchemesExist t7))) := by
    have h2 := hok.symm.trans hchain
    injection h2
  -- Phase B: the fields of t.
  have ht7p2 : t7.profiles = qs.filter fun p => !p.hidden := ht7p.trans rfl
  have ht7cs2 : t7.globals.colorSchemes = s.globals.colorSchemes := ht7cs.trans rfl
  have ht7kb2 : t7.globals.keybindingsWarnings = s.globals.keybindingsWarnings :=
    ht7kb.trans rfl
  have ht7un2 : t7.globals.unparsedDefaultProfile = s.globals.unparsedDefaultProfile :=
    ht7un.trans rfl
  have ht7u2 : t7.userProfileGuids = s.userProfileGuids := ht7u.trans rfl
  have ht7d2 : t7.defaultProfileGuids = s.defaultProfileGuids := ht7d.trans rfl
  have ht7g2 : t7.userHasGlobalsKey = s.userHasGlobalsKey := ht7g.trans rfl
  have htg : t.globals = t7.globals := by
    rw [ht, (globalsKey_pass_fields _).2.1, (keybindings_pass_fields _).2.1,
      (media_fields env _).1, (schemes_fields _).1]
  have htprof : t.profiles =
      ((qs.filter fun p => !p.hidden).map fun p =>
        (fixSchemeName t7.globals.colorSchemes p).1).map (fixMediaPaths env) := by
    rw [ht, (globalsKey_pass_fields _).1, (keybindings_pass_fields _).1,
      media_profiles, schemes_profiles, ht7p2]
  have htu : t.userProfileGuids = s.userProfileGuids := by
    rw [ht, (globalsKey_pass_fields _).2.2.1, (keybindings_pass_fields _).2.2.1,
      (media_fields env _).2.1, (schemes_fields _).2.1, ht7u2]
  have htd : t.defaultProfileGuids = s.defaultProfileGuids := by
    rw [ht, (globalsKey_pass_fields _).2.2.2.1, (keybindings_pass_fields _).2.2.2.1,
      (media_fields env _).2.2.1, (schemes_fields _).2.2.1, ht7d2]
  have htgk : t.userHasGlobalsKey = false := by
    rw [ht, (globalsKey_pass_fields _).2.2.2.2, (keybindings_pass_fields _).2.2.2.2,
      (media_fields env _).2.2.2, (schemes_fields _).2.2.2, ht7g2, hgk]
  -- Phase C: the facts the second run needs.
  have fNe : t.profiles ≠ [] := by
    rw [htprof]
    simpa [List.map_eq_nil_iff] using hfilter_ne
  have fSome : ∀ p ∈ t.profiles, p.guid.isSome := by
    intro p hp
    rw [htprof] at hp
    obtain ⟨q1, hq1, rfl⟩ := List.mem_map.mp hp
    obtain ⟨q0, hq0, rfl⟩ := List.mem_map.mp hq1
    rw [Option.isSome_iff_exists]
    have hq := hfiltersome q0 hq0
    obtain ⟨g, hg⟩ := Option.isSome_iff_exists.mp hq
    exact ⟨g, by rw [fixMediaPaths_guid, fixSchemeName_guid]; exact hg⟩
  have fHidden : ∀ p ∈ t.profiles, p.hidden = false := by
    intro p hp
    rw [htprof] at hp
    obtain ⟨q1, hq1, rfl⟩ := List.mem_map.mp hp
    obtain ⟨q0, hq0, rfl⟩ := List.mem_map.mp hq1
    rw [fixMediaPaths_hidden, fixSchemeName_hidden]
    have := (List.mem_filter.mp hq0).2
    simpa using this
  have fKeys : (guidKeys t.profiles).Nodup := by
    rw [htprof, guidKeys_map _ _ (fixMediaPaths_guid env),
      guidKeys_map _ _ (fixSchemeName_guid t7.globals.colorSchemes)]
    exact hndf
  have fInv : ReorderInv
      (collectGuidOrder (ValidateProfilesHaveGuid env { s with warnings := [] }))
      (collectGuidOrder (ValidateProfilesHaveGuid env { s with warnings := [] })).length
      t.profiles := by
    rw [htprof]
    refine reorderInv_map _ _ _ (fixMediaPaths_guid env) ?_
    refine reorderInv_map _ _ _ (fixSchemeName_guid t7.globals.colorSchemes) ?_
    exact reorderInv_filter _ _ _ hinvqs
  have fDnn : t.globals.defaultProfile ≠ nullGuid := by
    rw [htg]
    exact ht7dnn
  have fDin : ∃ p ∈ t.profiles, p.guid = some t.globals.defaultProfile := by
    rw [htg, htprof]
    refine exists_guid_map _ _ _ (fixMediaPaths_guid env) ?_
    refine exists_guid_map _ _ _ (fixSchemeName_guid t7.globals.colorSchemes) ?_
    exact ht7din
  have fScheme : ∀ p ∈ t.profiles, schemeInvalid t.globals.colorSchemes p = false := by
    intro p hp
    rw [htprof] at hp
    obtain ⟨q1, hq1, rfl⟩ := List.mem_map.mp hp
    obtain ⟨q0, hq0, rfl⟩ := List.mem_map.mp hq1
    rw [htg, schemeInvalid_fixMedia]
    exact fixSchemeName_stable _ _ (by rw [ht7cs2]; exact hC)
  have fMedia : ∀ p ∈ t.profiles,
      backgroundInvalid env p = false ∧ iconInvalid env p = false := by
    intro p hp
    rw [htprof] at hp
    obtain ⟨q1, _, rfl⟩ := List.mem_map.mp hp
    exact fixMediaPaths_stable env q1
  have fKb : t.globals.keybindingsWarnings = [] := by
    rw [htg, ht7kb2, hkb]
  have fUn : t.globals.unparsedDefaultProfile = none := by
    rw [htg, ht7un2, hun]
  have fOrd : collectGuidOrder { t with warnings := ([] : List SettingsLoadWarnings) } =
      collectGuidOrder (ValidateProfilesHaveGuid env { s with warnings := [] }) := by
    unfold collectGuidOrder
    rw [show ({ t with warnings := ([] : List SettingsLoadWarnings) } :
        CascadiaSettings).userProfileGuids = s.userProfileGuids from htu,
      show ({ t with warnings := ([] : List SettingsLoadWarnings) } :
        CascadiaSettings).defaultProfileGuids = s.defaultProfileGuids from htd]
    rfl
  -- Phase D: the second run is the identity with an empty warning list.
  have h1b : ValidateProfilesExist { t with warnings := [] } = .ok () := by
    simp [ValidateProfilesExist, fNe]
  have hassign : ValidateProfilesHaveGuid env { t with warnings := [] } =
      { t with warnings := [] } :=
    assign_id_of_allSome env _ fSome
  have hfixed : reorderAux
      (collectGuidOrder (ValidateProfilesHaveGuid env { s with warnings := [] })) 0
      ({ t with warnings := ([] : List SettingsLoadWarnings) } :
        CascadiaSettings).profiles =
      .ok ({ t with warnings := ([] : List SettingsLoadWarnings) } :
        CascadiaSettings).profiles := by
    have hres := reorderAux_fixed
      (collectGuidOrder (ValidateProfilesHaveGuid env { s with warnings := [] })) []
      t.profiles fSome (by simpa using fInv)
    simpa using hres
  have hreorder2 : ReorderProfilesToMatchUserSettingsOrder { t with warnings := [] } =
      .ok { t with warnings := [] } := by
    unfold ReorderProfilesToMatchUserSettingsOrder
    rw [fOrd, hfixed]
    rfl
  have hremove2 : RemoveHiddenProfiles { t with warnings := [] } =
      .ok { t with warnings := [] } :=
    removeHidden_noop _ fNe fHidden
  have hdedup2 : ValidateNoDuplicateProfiles { t with warnings := [] } =
      .ok { t with warnings := [] } :=
    dedup_noop _ fSome fKeys
  have hresolve2 : ResolveDefaultProfile { t with warnings := [] } =
      { t with warnings := [] } :=
    resolveDefault_of_none _ fUn
  have hdefault2 : ValidateDefaultProfileExists { t with warnings := [] } =
      .ok { t with warnings := [] } :=
    defaultExists_skip _ fDnn fDin
  have hschemes2 : ValidateAllSchemesExist { t with warnings := [] } =
      { t with warnings := [] } :=
    schemes_noop _ fScheme
  have hmedia2 : ValidateMediaResources env { t with warnings := [] } =
      { t with warnings := [] } :=
    media_noop env _ fMedia
  have hkb2 : ValidateKeybindings { t with warnings := [] } = { t with warnings := [] } :=
    keybindings_noop _ fKb
  have hgk2 : ValidateNoGlobalsKey { t with warnings := [] } = { t with warnings := [] } :=
    globalsKey_noop _ htgk
  simp only [ValidateSettings]
  rw [h1b]
  simp only [exceptBindOk]
  rw [hassign, hreorder2]
  simp only [exceptBindOk]
  rw [hremove2]
  simp only [exceptBindOk]
  rw [hdedup2]
  simp only [exceptBindOk]
  rw [hresolve2, hdefault2]
  simp only [exceptBindOk]
  rw [hschemes2, hmedia2, hkb2, hgk2]

/-- Witness for C9 (amended) at a concrete clean one-profile store, on which
validation is literally the identity. -/
theorem idempotenceAmendedWitness :
    (ValidateSettings env0 cleanState = .ok cleanState ∧
      (guidKeys (cleanState.profiles.map (generateGuidIfNecessary env0))).Nodup ∧
      (∀ p ∈ cleanState.profiles.map (generateGuidIfNecessary env0),
        p.guid ≠ some nullGuid) ∧
      cleanState.globals.keybindingsWarnings = [] ∧
      cleanState.userHasGlobalsKey = false ∧
      cleanState.globals.unparsedDefaultProfile = none ∧
      (cleanState.globals.colorSchemes.find? fun sc => sc.name == "Campbell").isSome) ∧
    ValidateSettings env0 cleanState = .ok { cleanState with warnings := [] } :=
  ⟨⟨rfl, by decide, by decide, rfl, rfl, rfl, rfl⟩,
    idempotenceAmendedTheorem env0 cleanState cleanState rfl (by decide) (by decide)
      rfl rfl rfl rfl⟩

end Terminal
